import Mathlib

/-!
Shallow embedding of the agent-execution core of the a2a-vertex-multi-agent
repository, together with theorems settling the frozen claims about it.

Conventions of the embedding:
* JavaScript values (`unknown`, JSON payloads) are modelled by the inductive
  type `Value`; JS numbers that hold token counts are `Nat`, monetary values
  are exact rationals `Rat` (JS float rounding is idealized away).
* Asynchronous code is modelled as pure state-passing; the external Gemini
  model is a response script indexed by the call number, the HTTP transport
  is a response function indexed by the attempt number.
* Thrown JS errors are `Except.error`; `Error` objects carry their message.
* Wall-clock readings (`Date.now()`) are modelled as 0: no claim concerns
  real time.
* Logging calls are elided except for the workflow failure log, whose fields
  (`correlationId`, `completedAgents`) are data a claim is about.
-/

namespace A2A

/-- JSON-like value modelling TypeScript `unknown` / JSON payloads. -/
inductive Value where
  | vNull : Value
  | vBool (b : Bool) : Value
  | vNum (q : Rat) : Value
  | vStr (s : String) : Value
  | vArr (xs : List Value) : Value
  | vObj (fields : List (String × Value)) : Value
deriving Repr

/-- Arguments of a tool call: a `Record<string, unknown>` as an association list. -/
abbrev Args := List (String × Value)

/-- Minimal JSON serialization standing in for `JSON.stringify` (pretty-print
whitespace is abstracted away; no claim inspects serialized bytes). -/
def stringifyValue : Value → String
  | .vNull => "null"
  | .vBool b => if b then "true" else "false"
  | .vNum q => toString q
  | .vStr s => "\"" ++ s ++ "\""
  | .vArr xs =>
      "[" ++ String.intercalate "," (xs.attach.map (fun x => stringifyValue x.1)) ++ "]"
  | .vObj fs =>
      "\x7b" ++
        String.intercalate ","
          (fs.attach.map (fun f => "\"" ++ f.1.1 ++ "\":" ++ stringifyValue f.1.2)) ++
      "\x7d"
decreasing_by
  · have hm := List.sizeOf_lt_of_mem x.2
    simp only [Value.vArr.sizeOf_spec]
    omega
  · have hm := List.sizeOf_lt_of_mem f.2
    have hp : sizeOf f.1.2 < sizeOf f.1 := by
      obtain ⟨a, b⟩ := f.1
      simp
    simp only [Value.vObj.sizeOf_spec]
    omega

/-! ## utils/cost-tracker.ts -/

/-- Token usage information for a single request (`TokenUsage`). -/
structure TokenUsage where
  inputTokens : Nat
  outputTokens : Nat
  totalTokens : Nat
  estimatedCost : Rat
deriving Repr, DecidableEq

/-- Aggregate metrics across multiple requests (`CostMetrics`). -/
structure CostMetrics where
  totalRequests : Nat
  totalInputTokens : Nat
  totalOutputTokens : Nat
  totalTokens : Nat
  totalCost : Rat
  averageTokensPerRequest : Rat
  averageCostPerRequest : Rat
deriving Repr, DecidableEq

/-- Per-1K-token pricing table (`PRICING`), exact rationals. -/
def PRICING (model : String) : Rat × Rat :=
  if model = "gemini-1.5-flash" then (75 / 1000000, 300 / 1000000)
  else (125 / 100000, 500 / 100000)

/-- Substring test used by the model-key dispatch (`model.includes('flash')`)
and by `isRetryableError`: `pat` occurs inside `s` (as char lists). -/
def startsWithChars : List Char → List Char → Bool
  | [], _ => true
  | _ :: _, [] => false
  | a :: as, b :: bs => a == b && startsWithChars as bs

/-- Whether `pat` occurs as a contiguous sublist of `s`. -/
def hasSubChars (pat : List Char) : List Char → Bool
  | [] => startsWithChars pat []
  | c :: rest => startsWithChars pat (c :: rest) || hasSubChars pat rest

/-- JS `String.prototype.includes`. -/
def strIncludes (s pat : String) : Bool :=
  hasSubChars pat.data s.data

/-- JS `String.prototype.toLowerCase` (ASCII, which covers all uses here). -/
def lowerStr (s : String) : String :=
  ⟨s.data.map Char.toLower⟩

/-- Embeds `calculateCost`: cost per the pricing table, defaulting any model
whose name does not include "flash" to the gemini-1.5-pro tier. -/
def calculateCost (inputTokens outputTokens : Nat) (model : String) : Rat :=
  let pricing := if strIncludes model "flash" then PRICING "gemini-1.5-flash" else PRICING "x"
  let inputCost := ((inputTokens : Rat) / 1000) * pricing.1
  let outputCost := ((outputTokens : Rat) / 1000) * pricing.2
  inputCost + outputCost

/-- Embeds `CostTracker.trackUsage` (pure part: the usage record built and
pushed onto the tracker's `requests` list). -/
def trackUsage (model : String) (inputTokens outputTokens : Nat) : TokenUsage :=
  { inputTokens := inputTokens
    outputTokens := outputTokens
    totalTokens := inputTokens + outputTokens
    estimatedCost := calculateCost inputTokens outputTokens model }

/-- Embeds `CostTracker.getMetrics` over the tracker's recorded `requests`.
The integer token sums and the request count are exact also in the source's
binary64 arithmetic (integers below 2^53); `totalCost` and the averages are
exact rationals here, whereas the source computes them with binary64
rounding — only the integer fields of this definition are relied on as
order-invariant. -/
def getMetrics (requests : List TokenUsage) : CostMetrics :=
  let totalRequests := requests.length
  if totalRequests = 0 then
    { totalRequests := 0, totalInputTokens := 0, totalOutputTokens := 0
      totalTokens := 0, totalCost := 0
      averageTokensPerRequest := 0, averageCostPerRequest := 0 }
  else
    let totalInputTokens := requests.foldl (fun sum r => sum + r.inputTokens) 0
    let totalOutputTokens := requests.foldl (fun sum r => sum + r.outputTokens) 0
    let totalTokens := requests.foldl (fun sum r => sum + r.totalTokens) 0
    let totalCost := requests.foldl (fun sum r => sum + r.estimatedCost) 0
    { totalRequests := totalRequests
      totalInputTokens := totalInputTokens
      totalOutputTokens := totalOutputTokens
      totalTokens := totalTokens
      totalCost := totalCost
      averageTokensPerRequest := (totalTokens : Rat) / (totalRequests : Rat)
      averageCostPerRequest := totalCost / (totalRequests : Rat) }

/-! ## Binary64 (JS number) arithmetic model

The source stores `estimatedCost` in JS numbers, which are IEEE-754
binary64 values; their addition rounds the exact sum to the nearest
representable value (round-to-nearest, ties-to-even). Binary64 values are
dyadic rationals, represented here exactly as `m * 2^e`; the canonical form
produced by rounding makes representations of equal values equal. The model
covers the normal finite range, which covers every value arising here. -/

/-- A binary64 value, represented exactly as `m * 2^e`. `roundDyadic`
canonicalizes (`m` odd, or `m = 0` with `e = 0`), so values produced by the
model compare correctly by representation. -/
structure Dyadic where
  m : Int
  e : Int
deriving Repr, DecidableEq

/-- Bit length of a natural number (fuel-bounded; 1200 exceeds the binary64
exponent range and every value arising here). -/
def bitLen : Nat → Nat → Nat
  | 0, _ => 0
  | fuel + 1, n => if n = 0 then 0 else bitLen fuel (n / 2) + 1

/-- Strip factors of two from the significand, canonicalizing the
representation (fuel-bounded). -/
def dCanon : Nat → Dyadic → Dyadic
  | 0, x => x
  | fuel + 1, x =>
    if x.m = 0 then ⟨0, 0⟩
    else if x.m % 2 = 0 then dCanon fuel ⟨x.m / 2, x.e + 1⟩
    else x

/-- Exact sum of two dyadics, at the smaller exponent. -/
def dAddExact (a b : Dyadic) : Dyadic :=
  if a.e ≤ b.e then ⟨a.m + b.m * ((2 ^ (b.e - a.e).toNat : Nat) : Int), a.e⟩
  else ⟨a.m * ((2 ^ (a.e - b.e).toNat : Nat) : Int) + b.m, b.e⟩

/-- Round a dyadic to a 53-bit significand — round-to-nearest,
ties-to-even — and canonicalize. -/
def roundDyadic (x : Dyadic) : Dyadic :=
  let n := x.m.natAbs
  let len := bitLen 1200 n
  if len ≤ 53 then dCanon 1200 x
  else
    let k := len - 53
    let twoK : Nat := 2 ^ k
    let q := n / twoK
    let r := n % twoK
    let half := twoK / 2
    let rounded := if r < half then q
      else if half < r then q + 1
      else if q % 2 = 0 then q else q + 1
    dCanon 1200
      ⟨if x.m < 0 then -(rounded : Int) else (rounded : Int), x.e + (k : Int)⟩

/-- JS `+` on numbers: the exact sum rounded to the nearest binary64
value. -/
def jsAdd (a b : Dyadic) : Dyadic := roundDyadic (dAddExact a b)

/-- The binary64 value nearest to the positive fraction `num / den` — what
JS makes of a decimal literal. The quotient is computed with at least three
guard bits; a non-zero division remainder becomes a sticky half-bit, which
places the value strictly between representable rounding boundaries exactly
as the true quotient is, so the final rounding is correct. -/
def decToDouble (num den : Nat) : Dyadic :=
  let ln := bitLen 1200 num
  let ld := bitLen 1200 den
  let k := ld + 56 - ln
  let N := num * 2 ^ k
  let q := N / den
  let r := N % den
  if r = 0 then roundDyadic ⟨(q : Int), -(k : Int)⟩
  else roundDyadic ⟨((2 * q + 1 : Nat) : Int), -(k : Int) - 1⟩

/-! ## utils/correlation.ts -/

/-- Character classes of the UUID-v4 regex in `isValidCorrelationId`. -/
inductive UuidCharClass where
  | hex : UuidCharClass
  | dash : UuidCharClass
  | four : UuidCharClass
  | variantNibble : UuidCharClass
deriving Repr, DecidableEq

/-- Whether a character matches a class of the UUID-v4 regex (the regex has
the `i` flag, so hex and the variant nibble are case-insensitive). -/
def uuidCharMatches : UuidCharClass → Char → Bool
  | .hex, c => c.isDigit || (('a' ≤ c) && (c ≤ 'f')) || (('A' ≤ c) && (c ≤ 'F'))
  | .dash, c => c == '-'
  | .four, c => c == '4'
  | .variantNibble, c =>
      c == '8' || c == '9' || c == 'a' || c == 'b' || c == 'A' || c == 'B'

/-- The 36-position pattern of
`/^[0-9a-f]{8}-[0-9a-f]{4}-4[0-9a-f]{3}-[89ab][0-9a-f]{3}-[0-9a-f]{12}$/i`. -/
def uuidPattern : List UuidCharClass :=
  List.replicate 8 .hex ++ [.dash] ++
  List.replicate 4 .hex ++ [.dash] ++
  [.four] ++ List.replicate 3 .hex ++ [.dash] ++
  [.variantNibble] ++ List.replicate 3 .hex ++ [.dash] ++
  List.replicate 12 .hex

/-- Embeds `isValidCorrelationId`: the whole string matches the UUID-v4 shape. -/
def isValidCorrelationId (id : String) : Bool :=
  id.data.length = uuidPattern.length &&
    (uuidPattern.zip id.data).all (fun p => uuidCharMatches p.1 p.2)

/-- Embeds `ensureCorrelationId`. The external `crypto.randomUUID` is the
parameter `gen` (its value for the one potential generation in this call);
the JS truthiness test `id && isValidCorrelationId(id)` is mirrored. -/
def ensureCorrelationId (gen : String) (id : Option String) : String :=
  match id with
  | some i => if i ≠ "" && isValidCorrelationId i then i else gen
  | none => gen

/-! ## utils/retry.ts -/

/-- The `retryableMessages` list of `isRetryableError`. -/
def retryableMessages : List String :=
  ["ECONNRESET", "ETIMEDOUT", "ENOTFOUND", "ECONNREFUSED",
   "timeout", "rate limit", "429", "503", "504"]

/-- Thrown JS `Error`: carries its message. -/
structure JsError where
  message : String
deriving Repr, DecidableEq

/-- Embeds `isRetryableError` (for actual `Error` instances): some retryable
marker occurs in the lowercased message. -/
def isRetryableError (error : JsError) : Bool :=
  retryableMessages.any
    (fun msg => strIncludes (lowerStr error.message) (lowerStr msg))

/-! ## vertex/types.ts -/

/-- Function call datum inside a response part; the SDK may omit `args`
(the loop applies `?? \x7b\x7d`). -/
structure PartFunctionCall where
  name : String
  args : Option Args
deriving Repr

/-- Function call extracted by the loop (`FunctionCall`): args defaulted. -/
structure FunctionCall where
  name : String
  args : Args
deriving Repr

/-- Function call response sent back to the model (`FunctionResponse`);
`content` is the `response.content` payload. -/
structure FunctionResponse where
  name : String
  content : Value
deriving Repr

/-- One part of a message or of a model response. -/
structure Part where
  text : Option String := none
  functionCall : Option PartFunctionCall := none
  functionResponse : Option FunctionResponse := none
deriving Repr

/-- Message role. -/
inductive Role where
  | user : Role
  | model : Role
deriving Repr, DecidableEq

/-- Message in conversation history (`Message`). -/
structure Message where
  role : Role
  parts : List Part
deriving Repr

/-- The `content` object of a response candidate (`parts` may be absent). -/
structure CandContent where
  parts : Option (List Part)
deriving Repr

/-- One candidate of a Gemini response (`content` may be absent). -/
structure Candidate where
  content : Option CandContent
deriving Repr

/-- Gemini response as consumed by the loop (`GenerateContentResult`):
an absent candidate list is modelled as the empty list, which the source
treats identically. -/
structure GenerateContentResult where
  candidates : List Candidate
deriving Repr

/-- Token usage metadata of one Gemini call (`GeminiTokenUsage`). -/
structure GeminiTokenUsage where
  promptTokenCount : Nat
  candidatesTokenCount : Nat
  totalTokenCount : Nat
deriving Repr, DecidableEq

/-! ## vertex/function-calling.ts -/

/-- Embeds `extractFunctionCalls`: all `functionCall` parts of the first
candidate, with missing `args` defaulted to the empty record. -/
def extractFunctionCalls (result : GenerateContentResult) : List FunctionCall :=
  match result.candidates with
  | [] => []
  | c :: _ =>
    let parts := (c.content.bind (fun content => content.parts)).getD []
    parts.filterMap
      (fun part => part.functionCall.map (fun fc => ⟨fc.name, fc.args.getD []⟩))

/-- Embeds `extractTextResponse`: the first part whose `text` is truthy
(present and non-empty); a falsy `text` lets the scan continue. -/
def extractTextResponse (result : GenerateContentResult) : Option String :=
  match result.candidates with
  | [] => none
  | c :: _ =>
    ((c.content.bind (fun content => content.parts)).getD []).findSome?
      (fun part =>
        match part.text with
        | some t => if t = "" then none else some t
        | none => none)

/-- One executed call recorded in `FunctionCallingResult.functionCalls`. -/
structure CallRecord where
  name : String
  args : Args
  result : Value
deriving Repr

/-- Result of the function calling loop (`FunctionCallingResult`). -/
structure FunctionCallingResult where
  finalAnswer : Option String
  functionCalls : List CallRecord
  totalIterations : Nat
deriving Repr

/-- Function executor (`FunctionExecutor`); a thrown error is `Except.error`
carrying the message the loop serializes. -/
abbrev FunctionExecutor := String → Args → Except String Value

/-- The two errors the loop can throw:
`Function calling exceeded maximum iterations (N)` and
`Function calling loop terminated without final answer`. -/
inductive LoopError where
  | maxIterationsExceeded (maxIterations : Nat) : LoopError
  | noFinalAnswer : LoopError
deriving Repr, DecidableEq

/-- Response datum for one call: the executed result, or on a thrown executor
error the error object `\x7b error: message \x7d` (never re-thrown). -/
def mkFunctionResponse (executor : FunctionExecutor) (call : FunctionCall) :
    FunctionResponse :=
  match executor call.name call.args with
  | .ok callResult => ⟨call.name, callResult⟩
  | .error msg => ⟨call.name, .vObj [("error", .vStr msg)]⟩

/-- The records pushed onto `functionCalls` while executing a batch WHEN the
executor promises settle in request order: the source pushes only in the
non-throwing branch, so failed calls are skipped. The source pushes each
record inside its own `Promise.all` callback, i.e. in promise-settlement
order, which need not be the request order; `successRecordsIn` below models
an arbitrary settlement order, of which this is the in-order instance. -/
def successRecords (executor : FunctionExecutor) (calls : List FunctionCall) :
    List CallRecord :=
  calls.filterMap
    (fun call =>
      match executor call.name call.args with
      | .ok callResult => some ⟨call.name, call.args, callResult⟩
      | .error _ => none)

/-- The model-role message holding a whole call batch. -/
def mkCallBatchMessage (calls : List FunctionCall) : Message :=
  ⟨.model, calls.map (fun call => { functionCall := some ⟨call.name, some call.args⟩ })⟩

/-- The user-role message holding all of a batch's responses. -/
def mkResponsesMessage (responses : List FunctionResponse) : Message :=
  ⟨.user, responses.map (fun resp => { functionResponse := some resp })⟩

/-- How one run of the `while` loop ends: `success` at the `return`,
`broke` at the malformed-response `break` (recording the iteration counter),
`ranOut` when the `iteration < maxIterations` condition fails. -/
inductive LoopExit where
  | success (r : FunctionCallingResult) : LoopExit
  | broke (iteration : Nat) : LoopExit
  | ranOut (iteration : Nat) : LoopExit
deriving Repr

/-- Body of the `while` loop of `executeFunctionCallingLoop`. The external
model is the response script `script`, indexed by the 0-based call number,
which always equals the pre-increment `iteration` counter; `fuel` is the
number of loop-condition checks left (`maxIterations - iteration`).
Executor promises are taken to settle in request order here — the
conversation messages do not depend on that choice, only the order of the
`functionCalls` records does; `loopGoSched` below threads an arbitrary
settlement schedule and coincides with this function on the in-order
schedule. -/
def loopGo (script : Nat → GenerateContentResult) (executor : FunctionExecutor) :
    List Message → List CallRecord → Nat → Nat → LoopExit
  | _msgs, _acc, iteration, 0 => .ranOut iteration
  | msgs, acc, iteration, fuel + 1 =>
    let iter := iteration + 1
    let result := script iteration
    match extractFunctionCalls result with
    | [] =>
      match extractTextResponse result with
      | some textResponse => .success ⟨some textResponse, acc, iter⟩
      | none => .broke iter
    | call :: rest =>
      let calls := call :: rest
      let functionResponses := calls.map (mkFunctionResponse executor)
      loopGo script executor
        (msgs ++ [mkCallBatchMessage calls, mkResponsesMessage functionResponses])
        (acc ++ successRecords executor calls) iter fuel

/-- Gemini function declaration (`FunctionDeclaration`); the parameter schema
is opaque data. -/
structure FunctionDeclaration where
  name : String
  description : String
  parameters : Value
deriving Repr

/-- Embeds `executeFunctionCallingLoop`. Returns the loop's outcome together
with the number of `generateContent` calls it made. The `tools` catalog is
forwarded to the model on every call and does not otherwise affect the loop.
After the loop, the source raises the max-iterations error whenever
`iteration >= maxIterations` — also when the loop had stopped at the
malformed-response `break` — and the no-final-answer error otherwise. -/
def executeFunctionCallingLoop (script : Nat → GenerateContentResult)
    (initialMessages : List Message) (tools : List FunctionDeclaration)
    (executor : FunctionExecutor) (maxIterations : Nat := 10) :
    Except LoopError FunctionCallingResult × Nat :=
  let _catalog := tools
  match loopGo script executor initialMessages [] 0 maxIterations with
  | .success r => (.ok r, r.totalIterations)
  | .broke iteration =>
      if iteration ≥ maxIterations then
        (.error (.maxIterationsExceeded maxIterations), iteration)
      else
        (.error .noFinalAnswer, iteration)
  | .ranOut iteration =>
      if iteration ≥ maxIterations then
        (.error (.maxIterationsExceeded maxIterations), iteration)
      else
        (.error .noFinalAnswer, iteration)

/-! ## Promise-settlement order of one batch

The source executes a batch with `Promise.all` and pushes each successful
call's record inside that call's own async callback — i.e. in the order the
executor promises settle, which need not be the request order. The
settlement order of the batch run at iteration `n` is modelled as a list of
call indices `sched n`; the response message sent back to the model is
unaffected (`Promise.all` returns the response array in request order). -/

/-- The records pushed while executing one batch whose executor promises
settle in the index order `order` (for a real run, a permutation of the
call indices): the successful calls' records in settlement order, failed
calls skipped. -/
def successRecordsIn (executor : FunctionExecutor) (calls : List FunctionCall)
    (order : List Nat) : List CallRecord :=
  (order.filterMap (fun k => calls[k]?)).filterMap
    (fun call =>
      match executor call.name call.args with
      | .ok callResult => some ⟨call.name, call.args, callResult⟩
      | .error _ => none)

/-- The settlement schedule under which every batch's promises settle in
request order. -/
def requestOrderSched (script : Nat → GenerateContentResult) : Nat → List Nat :=
  fun n => List.range (extractFunctionCalls (script n)).length

/-- `loopGo` generalized over the promise-settlement schedule `sched`:
identical except that the batch run at iteration `n` appends its records in
the settlement order `sched n`. -/
def loopGoSched (script : Nat → GenerateContentResult)
    (executor : FunctionExecutor) (sched : Nat → List Nat) :
    List Message → List CallRecord → Nat → Nat → LoopExit
  | _msgs, _acc, iteration, 0 => .ranOut iteration
  | msgs, acc, iteration, fuel + 1 =>
    let iter := iteration + 1
    let result := script iteration
    match extractFunctionCalls result with
    | [] =>
      match extractTextResponse result with
      | some textResponse => .success ⟨some textResponse, acc, iter⟩
      | none => .broke iter
    | call :: rest =>
      let calls := call :: rest
      let functionResponses := calls.map (mkFunctionResponse executor)
      loopGoSched script executor sched
        (msgs ++ [mkCallBatchMessage calls, mkResponsesMessage functionResponses])
        (acc ++ successRecordsIn executor calls (sched iteration)) iter fuel

/-- `executeFunctionCallingLoop` generalized over the settlement schedule. -/
def executeFunctionCallingLoopSched (script : Nat → GenerateContentResult)
    (sched : Nat → List Nat) (initialMessages : List Message)
    (tools : List FunctionDeclaration) (executor : FunctionExecutor)
    (maxIterations : Nat := 10) :
    Except LoopError FunctionCallingResult × Nat :=
  let _catalog := tools
  match loopGoSched script executor sched initialMessages [] 0 maxIterations with
  | .success r => (.ok r, r.totalIterations)
  | .broke iteration =>
      if iteration ≥ maxIterations then
        (.error (.maxIterationsExceeded maxIterations), iteration)
      else
        (.error .noFinalAnswer, iteration)
  | .ranOut iteration =>
      if iteration ≥ maxIterations then
        (.error (.maxIterationsExceeded maxIterations), iteration)
      else
        (.error .noFinalAnswer, iteration)

/-! ## mcp/types.ts and agents/types.ts -/

/-- Remote tool descriptor listed from an MCP server (`MCPTool`). -/
structure MCPTool where
  name : String
  description : String
  inputSchema : Value
deriving Repr

/-- One content item of an MCP tool response (`MCPToolCallResponse.content`). -/
structure MCPContent where
  type : String
  text : Option String := none
  data : Option Value := none
deriving Repr

/-- MCP tool call response (`MCPToolCallResponse`). -/
structure MCPToolCallResponse where
  content : List MCPContent
  isError : Bool
deriving Repr

/-- MCP tool call request (`MCPToolCallRequest`). -/
structure MCPCallRequest where
  name : String
  arguments : Args
deriving Repr

/-- Locally registered tool (`Tool`): a thrown executor error is
`Except.error` with the error's message. -/
structure Tool where
  name : String
  description : String
  parameters : Value
  execute : Args → Except String Value

/-- A prior stage's result inside an agent request. -/
structure PrevResult where
  agentName : String
  result : Value
deriving Repr

/-- Input to an agent request (`AgentInput`). -/
structure AgentInput where
  correlationId : Option String := none
  query : String
  context : Option (List (String × Value)) := none
  previousResults : Option (List PrevResult) := none
deriving Repr

/-- Metadata of an agent response (`AgentOutput.metadata`; `warnings` is never
populated by the source and is elided). -/
structure AgentMetadata where
  agentName : String
  executionTime : Nat
  tokenUsage : TokenUsage
  toolsUsed : List String
  iterations : Option Nat
deriving Repr

/-- Output of an agent request (`AgentOutput`). -/
structure AgentOutput where
  correlationId : String
  result : Value
  metadata : AgentMetadata
deriving Repr

/-! ## agents/base-agent.ts -/

/-- State of one initialized `BaseAgent`: its identity and prompt, the model
name, the registered local tools, the listed MCP tools, and the optional MCP
client (the external tool server as a function; a thrown call is
`Except.error`). -/
structure AgentState where
  agentName : String
  systemPrompt : String
  model : String
  tools : List Tool
  mcpTools : List MCPTool
  mcpClient : Option (MCPCallRequest → Except String MCPToolCallResponse)

/-- The two lines a previous stage's result contributes to the prompt. -/
def prevResultText (prev : PrevResult) : List String :=
  ["\n--- " ++ prev.agentName ++ " ---",
   match prev.result with
   | .vStr s => s
   | v => stringifyValue v]

/-- Embeds `BaseAgent.buildPrompt`: system instructions, then prior results
in order, then serialized context, then the raw query, joined by newlines. -/
def buildPrompt (systemPrompt : String) (input : AgentInput) : String :=
  let parts : List String := ["SYSTEM INSTRUCTIONS:", systemPrompt, ""]
  let parts := parts ++
    (match input.previousResults with
     | some prevs =>
         if prevs.length > 0 then
           ["PREVIOUS AGENT RESULTS:"] ++ (prevs.map prevResultText).flatten ++ [""]
         else []
     | none => [])
  let parts := parts ++
    (match input.context with
     | some ctx =>
         if ctx.length > 0 then
           ["ADDITIONAL CONTEXT:", stringifyValue (.vObj ctx), ""]
         else []
     | none => [])
  let parts := parts ++ ["USER QUERY:", input.query]
  String.intercalate "\n" parts

/-- Embeds `BaseAgent.buildFunctionDeclarations`: one push loop over the
local tools, then one push loop over the MCP tools. -/
def buildFunctionDeclarations (agent : AgentState) : List FunctionDeclaration :=
  let declarations : List FunctionDeclaration := []
  let declarations := agent.tools.foldl
    (fun ds tool => ds ++ [⟨tool.name, tool.description, tool.parameters⟩])
    declarations
  agent.mcpTools.foldl
    (fun ds mcpTool => ds ++ [⟨mcpTool.name, mcpTool.description, mcpTool.inputSchema⟩])
    declarations

/-- The text extracted from an MCP response: the `text` of every item whose
`type` is "text" and whose `text` is truthy, joined by newlines. -/
def mcpTextContent (content : List MCPContent) : String :=
  String.intercalate "\n"
    ((content.filter (fun c => c.type == "text" && (c.text.getD "" != ""))).map
      (fun c => c.text.getD ""))

/-- The MCP response content as a JSON-like value (for the fallback return
and the serialized error message). -/
def mcpContentValue (content : List MCPContent) : Value :=
  .vArr (content.map (fun c => .vObj
    ([("type", Value.vStr c.type)] ++
     (match c.text with | some t => [("text", Value.vStr t)] | none => []) ++
     (match c.data with | some d => [("data", d)] | none => []))))

/-- Embeds `BaseAgent.invokeTool`: local tools are searched first and win;
otherwise a matching MCP tool is called when an MCP client is connected
(an error-flagged MCP response is thrown, and the text content is extracted
with the raw content as fallback); otherwise a not-found error is thrown. -/
def invokeTool (agent : AgentState) (name : String) (args : Args) :
    Except String Value :=
  match agent.tools.find? (fun t => t.name == name) with
  | some localTool => localTool.execute args
  | none =>
    match agent.mcpTools.find? (fun t => t.name == name), agent.mcpClient with
    | some _, some mcpCall =>
      match mcpCall ⟨name, args⟩ with
      | .error e => .error e
      | .ok response =>
        if response.isError then
          .error ("MCP tool " ++ name ++ " returned error: " ++
            stringifyValue (mcpContentValue response.content))
        else
          let textContent := mcpTextContent response.content
          if textContent ≠ "" then .ok (.vStr textContent)
          else .ok (mcpContentValue response.content)
    | _, _ => .error ("Tool not found: " ++ name)

/-- Embeds `BaseAgent.processRequest`. The Gemini client is the script
`script` indexed by the call number, returning each call's response and its
token usage. Returns the propagated outcome, the total number of
`generateContent` calls made, and the usages pushed onto the cost tracker.
After a successful loop the source makes one more `generateContent` call —
with the original message list and an empty tool list, at call index
`calls` — solely to obtain token counts, and records only that call's
usage. -/
def processRequest (script : Nat → GenerateContentResult × GeminiTokenUsage)
    (gen : String) (agent : AgentState) (input : AgentInput) :
    Except LoopError AgentOutput × Nat × List TokenUsage :=
  let correlationId := ensureCorrelationId gen input.correlationId
  let messages : List Message :=
    [⟨.user, [{ text := some (buildPrompt agent.systemPrompt input) }]⟩]
  let functionDeclarations := buildFunctionDeclarations agent
  match executeFunctionCallingLoop (fun n => (script n).1) messages
      functionDeclarations (invokeTool agent) 10 with
  | (.error e, calls) => (.error e, calls, [])
  | (.ok r, calls) =>
    let usage := (script calls).2
    let tokenUsage :=
      trackUsage agent.model usage.promptTokenCount usage.candidatesTokenCount
    (.ok
      { correlationId := correlationId
        result := .vStr (r.finalAnswer.getD "No response generated")
        metadata :=
          { agentName := agent.agentName
            executionTime := 0
            tokenUsage := tokenUsage
            toolsUsed := r.functionCalls.map (fun fc => fc.name)
            iterations := some r.totalIterations } },
     calls + 1, [tokenUsage])

/-! ## orchestrator clients/base-client.ts -/

/-- One HTTP response of the agent endpoint, as the client consumes it:
status code, the error body text read on failure, and the decoded
`AgentOutput` body used on status 200. -/
structure HttpResponse where
  statusCode : Nat
  bodyText : String
  bodyJson : AgentOutput

/-- One attempt of `BaseAgentClient.process`: POST the request, throw an
`Error` with status and body text unless the status is 200, else return the
decoded body. The network is the `transport` function from the 1-based
attempt number to the response. -/
def processAttempt (transport : Nat → HttpResponse) (attempt : Nat) :
    Except JsError AgentOutput :=
  let response := transport attempt
  if response.statusCode ≠ 200 then
    .error ⟨"Agent returned status " ++ toString response.statusCode ++ ": " ++
      response.bodyText⟩
  else
    .ok response.bodyJson

/-- The `p-retry` attempt loop: run `fn` at the current attempt number and,
on any error, retry while retries remain (the library retries every plain
`Error`; backoff delays are irrelevant to the result). Returns the outcome
and the number of attempts made. -/
def pRetryGo {α : Type} (fn : Nat → Except JsError α) (attemptNumber : Nat) :
    Nat → Except JsError α × Nat
  | 0 =>
    (match fn attemptNumber with
     | .ok a => (.ok a, attemptNumber)
     | .error e => (.error e, attemptNumber))
  | retriesLeft + 1 =>
    match fn attemptNumber with
    | .ok a => (.ok a, attemptNumber)
    | .error _ => pRetryGo fn (attemptNumber + 1) retriesLeft

/-- `p-retry` entry point: attempts start at 1, `retries` additional attempts
are allowed after the first. -/
def pRetryRun {α : Type} (fn : Nat → Except JsError α) (retries : Nat) :
    Except JsError α × Nat :=
  pRetryGo fn 1 retries

/-- Embeds `BaseAgentClient.process`: the attempt wrapped in `p-retry` with
`retries: 3` and no retryable-error predicate. -/
def clientProcess (transport : Nat → HttpResponse) :
    Except JsError AgentOutput × Nat :=
  pRetryRun (processAttempt transport) 3

/-! ## orchestrator workflows/research-analysis-writer.ts -/

/-- Input to a workflow execution (`WorkflowInput`). -/
structure WorkflowInput where
  query : String
  context : Option (List (String × Value)) := none
  correlationId : Option String := none
deriving Repr

/-- One entry of `metadata.agents` (`agentResults` in the source). -/
structure StageRecord where
  name : String
  executionTime : Nat
  tokenUsage : TokenUsage
  success : Bool
deriving Repr, DecidableEq

/-- The accumulator step of the workflow's token-usage `reduce`: field-wise
sums of the four `TokenUsage` fields, in exact arithmetic. The source adds
JS numbers: exact for the integer token counts (binary64 addition is exact
below 2^53) but rounded for `estimatedCost`; `usageAddJs` below models the
cost addition with binary64 rounding. -/
def usageAdd (acc u : TokenUsage) : TokenUsage :=
  { inputTokens := acc.inputTokens + u.inputTokens
    outputTokens := acc.outputTokens + u.outputTokens
    totalTokens := acc.totalTokens + u.totalTokens
    estimatedCost := acc.estimatedCost + u.estimatedCost }

/-- The initial accumulator of the workflow's token-usage `reduce`. -/
def usageZero : TokenUsage :=
  { inputTokens := 0, outputTokens := 0, totalTokens := 0, estimatedCost := 0 }

/-- `TokenUsage` under the source's actual number representation: the cost
field is a binary64 value. -/
structure TokenUsageJs where
  inputTokens : Nat
  outputTokens : Nat
  totalTokens : Nat
  estimatedCost : Dyadic
deriving Repr, DecidableEq

/-- The workflow reduce accumulator step under the source's binary64 number
semantics: the integer token counts add exactly (binary64 addition is exact
on integers below 2^53, modelled as `Nat` addition), while `estimatedCost`
adds with binary64 rounding (`jsAdd`). -/
def usageAddJs (acc u : TokenUsageJs) : TokenUsageJs :=
  { inputTokens := acc.inputTokens + u.inputTokens
    outputTokens := acc.outputTokens + u.outputTokens
    totalTokens := acc.totalTokens + u.totalTokens
    estimatedCost := jsAdd acc.estimatedCost u.estimatedCost }

/-- The initial accumulator under binary64 semantics. -/
def usageZeroJs : TokenUsageJs :=
  { inputTokens := 0, outputTokens := 0, totalTokens := 0, estimatedCost := ⟨0, 0⟩ }

/-- Metadata of a workflow result (`WorkflowOutput.metadata`). -/
structure WorkflowMetadata where
  workflowName : String
  agents : List StageRecord
  totalExecutionTime : Nat
  totalTokenUsage : TokenUsage
  totalCost : Rat
deriving Repr

/-- Output of a workflow execution (`WorkflowOutput`). -/
structure WorkflowOutput where
  correlationId : String
  result : Value
  metadata : WorkflowMetadata
  intermediateResults : List PrevResult
deriving Repr

/-- The data of the `logger.error` entry written when the workflow fails:
the correlation id and `completedAgents` (the length of `agentResults` at
the failure). -/
structure WorkflowErrorLog where
  correlationId : String
  completedAgents : Nat
deriving Repr, DecidableEq

/-- The correlation id one workflow execution runs under. -/
def wfCid (gen : String) (input : WorkflowInput) : String :=
  ensureCorrelationId gen input.correlationId

/-- The request `execute` issues to the research stage. -/
def wfResearchRequest (gen : String) (input : WorkflowInput) : AgentInput :=
  { correlationId := some (wfCid gen input)
    query := input.query
    context := input.context }

/-- The request `execute` issues to the analysis stage. -/
def wfAnalysisRequest (gen : String) (input : WorkflowInput)
    (researchResult : AgentOutput) : AgentInput :=
  { correlationId := some (wfCid gen input)
    query := input.query
    context := input.context
    previousResults := some [⟨"research-agent", researchResult.result⟩] }

/-- The request `execute` issues to the writer stage. -/
def wfWriterRequest (gen : String) (input : WorkflowInput)
    (researchResult analysisResult : AgentOutput) : AgentInput :=
  { correlationId := some (wfCid gen input)
    query := "Create a comprehensive report based on the research and analysis. "
      ++ input.query
    context := input.context
    previousResults := some
      [⟨"research-agent", researchResult.result⟩,
       ⟨"analysis-agent", analysisResult.result⟩] }

/-- Embeds `ResearchAnalysisWriterWorkflow.execute`. Each stage client is a
function from the issued `AgentInput` to its outcome (its own retries are
internal to it). Returns the propagated outcome, the failure-log data when a
stage failed (the `catch` block only logs and rethrows the stage's error),
and the ordered list of stage requests that were issued. -/
def executeWorkflow (gen : String)
    (researchProcess analysisProcess writerProcess :
      AgentInput → Except JsError AgentOutput)
    (input : WorkflowInput) :
    Except JsError WorkflowOutput × Option WorkflowErrorLog × List AgentInput :=
  let correlationId := wfCid gen input
  let researchRequest := wfResearchRequest gen input
  match researchProcess researchRequest with
  | .error e => (.error e, some ⟨correlationId, 0⟩, [researchRequest])
  | .ok researchResult =>
    let agentResults : List StageRecord :=
      [⟨"research-agent", 0, researchResult.metadata.tokenUsage, true⟩]
    let intermediateResults : List PrevResult :=
      [⟨"research-agent", researchResult.result⟩]
    let analysisRequest := wfAnalysisRequest gen input researchResult
    match analysisProcess analysisRequest with
    | .error e =>
      (.error e, some ⟨correlationId, agentResults.length⟩,
       [researchRequest, analysisRequest])
    | .ok analysisResult =>
      let agentResults := agentResults ++
        [⟨"analysis-agent", 0, analysisResult.metadata.tokenUsage, true⟩]
      let intermediateResults := intermediateResults ++
        [⟨"analysis-agent", analysisResult.result⟩]
      let writerRequest := wfWriterRequest gen input researchResult analysisResult
      match writerProcess writerRequest with
      | .error e =>
        (.error e, some ⟨correlationId, agentResults.length⟩,
         [researchRequest, analysisRequest, writerRequest])
      | .ok writerResult =>
        let agentResults := agentResults ++
          [⟨"writer-agent", 0, writerResult.metadata.tokenUsage, true⟩]
        let totalTokenUsage :=
          agentResults.foldl (fun acc agent => usageAdd acc agent.tokenUsage) usageZero
        (.ok
          { correlationId := correlationId
            result := writerResult.result
            metadata :=
              { workflowName := "research-analysis-writer"
                agents := agentResults
                totalExecutionTime := 0
                totalTokenUsage := totalTokenUsage
                totalCost := totalTokenUsage.estimatedCost }
            intermediateResults := intermediateResults },
         none,
         [researchRequest, analysisRequest, writerRequest])

/-! ## Helper lemmas -/

/-- A push-style fold builds the map of the list after the initial segment. -/
theorem foldl_push_eq_map {α β : Type} (g : α → β) (l : List α) (init : List β) :
    l.foldl (fun ds x => ds ++ [g x]) init = init ++ l.map g := by
  induction l generalizing init with
  | nil => simp
  | cons a t ih => simp [ih]

/-- A running-sum fold equals the initial value plus the sum of the images. -/
theorem foldl_add_eq_sum {M α : Type} [AddCommMonoid M] (f : α → M)
    (l : List α) (n : M) :
    l.foldl (fun sum r => sum + f r) n = n + (l.map f).sum := by
  induction l generalizing n with
  | nil => simp
  | cons a t ih => simp [ih, add_assoc]

/-- A valid correlation id is not the empty string. -/
theorem valid_cid_ne_empty {i : String} (h : isValidCorrelationId i = true) :
    i ≠ "" := by
  intro he
  subst he
  exact absurd h (by decide)

/-- Workflow unfolding: the research stage fails. -/
theorem executeWorkflow_research_fails (gen : String)
    (researchProcess analysisProcess writerProcess :
      AgentInput → Except JsError AgentOutput)
    (input : WorkflowInput) (e : JsError)
    (h : researchProcess (wfResearchRequest gen input) = .error e) :
    executeWorkflow gen researchProcess analysisProcess writerProcess input =
      (.error e, some ⟨wfCid gen input, 0⟩, [wfResearchRequest gen input]) := by
  simp [executeWorkflow, h]

/-- Workflow unfolding: the research stage succeeds, the analysis stage
fails. -/
theorem executeWorkflow_analysis_fails (gen : String)
    (researchProcess analysisProcess writerProcess :
      AgentInput → Except JsError AgentOutput)
    (input : WorkflowInput) (researchResult : AgentOutput) (e : JsError)
    (h1 : researchProcess (wfResearchRequest gen input) = .ok researchResult)
    (h2 : analysisProcess (wfAnalysisRequest gen input researchResult) = .error e) :
    executeWorkflow gen researchProcess analysisProcess writerProcess input =
      (.error e, some ⟨wfCid gen input, 1⟩,
       [wfResearchRequest gen input, wfAnalysisRequest gen input researchResult]) := by
  simp [executeWorkflow, h1, h2]

/-- Workflow unfolding: the first two stages succeed, the writer stage
fails. -/
theorem executeWorkflow_writer_fails (gen : String)
    (researchProcess analysisProcess writerProcess :
      AgentInput → Except JsError AgentOutput)
    (input : WorkflowInput) (researchResult analysisResult : AgentOutput)
    (e : JsError)
    (h1 : researchProcess (wfResearchRequest gen input) = .ok researchResult)
    (h2 : analysisProcess (wfAnalysisRequest gen input researchResult) =
      .ok analysisResult)
    (h3 : writerProcess (wfWriterRequest gen input researchResult analysisResult) =
      .error e) :
    executeWorkflow gen researchProcess analysisProcess writerProcess input =
      (.error e, some ⟨wfCid gen input, 2⟩,
       [wfResearchRequest gen input, wfAnalysisRequest gen input researchResult,
        wfWriterRequest gen input researchResult analysisResult]) := by
  simp [executeWorkflow, h1, h2, h3]

/-- Workflow unfolding: all three stages succeed. -/
theorem executeWorkflow_success (gen : String)
    (researchProcess analysisProcess writerProcess :
      AgentInput → Except JsError AgentOutput)
    (input : WorkflowInput) (researchResult analysisResult writerResult : AgentOutput)
    (h1 : researchProcess (wfResearchRequest gen input) = .ok researchResult)
    (h2 : analysisProcess (wfAnalysisRequest gen input researchResult) =
      .ok analysisResult)
    (h3 : writerProcess (wfWriterRequest gen input researchResult analysisResult) =
      .ok writerResult) :
    executeWorkflow gen researchProcess analysisProcess writerProcess input =
      (.ok
        { correlationId := wfCid gen input
          result := writerResult.result
          metadata :=
            { workflowName := "research-analysis-writer"
              agents :=
                [⟨"research-agent", 0, researchResult.metadata.tokenUsage, true⟩,
                 ⟨"analysis-agent", 0, analysisResult.metadata.tokenUsage, true⟩,
                 ⟨"writer-agent", 0, writerResult.metadata.tokenUsage, true⟩]
              totalExecutionTime := 0
              totalTokenUsage :=
                ([⟨"research-agent", 0, researchResult.metadata.tokenUsage, true⟩,
                  ⟨"analysis-agent", 0, analysisResult.metadata.tokenUsage, true⟩,
                  ⟨"writer-agent", 0, writerResult.metadata.tokenUsage,
                    true⟩] : List StageRecord).foldl
                  (fun acc agent => usageAdd acc agent.tokenUsage) usageZero
              totalCost :=
                (([⟨"research-agent", 0, researchResult.metadata.tokenUsage, true⟩,
                   ⟨"analysis-agent", 0, analysisResult.metadata.tokenUsage, true⟩,
                   ⟨"writer-agent", 0, writerResult.metadata.tokenUsage,
                     true⟩] : List StageRecord).foldl
                  (fun acc agent => usageAdd acc agent.tokenUsage)
                  usageZero).estimatedCost }
          intermediateResults :=
            [⟨"research-agent", researchResult.result⟩,
             ⟨"analysis-agent", analysisResult.result⟩] },
       none,
       [wfResearchRequest gen input, wfAnalysisRequest gen input researchResult,
        wfWriterRequest gen input researchResult analysisResult]) := by
  simp [executeWorkflow, h1, h2, h3]

/-! ## Claim C9 -/

/-- Exact dyadic addition is commutative. -/
theorem dAddExact_comm (a b : Dyadic) : dAddExact a b = dAddExact b a := by
  unfold dAddExact
  rcases lt_trichotomy a.e b.e with h | h | h
  · rw [if_pos h.le, if_neg (not_le.mpr h), Int.add_comm]
  · rw [if_pos h.le, if_pos h.ge, h]
    simp [Int.add_comm]
  · rw [if_neg (not_le.mpr h), if_pos h.le, Int.add_comm]

/-- Binary64 addition is commutative (its exact sum is). -/
theorem jsAdd_comm (a b : Dyadic) : jsAdd a b = jsAdd b a :=
  congrArg roundDyadic (dAddExact_comm a b)

/-- The integer token fields of the binary64-semantics fold are plain
sums. -/
theorem usageAddJs_foldl_tokens (rs : List TokenUsageJs) (z : TokenUsageJs) :
    ((rs.foldl (fun acc u => usageAddJs acc u) z).inputTokens =
      z.inputTokens + (rs.map (fun r => r.inputTokens)).sum) ∧
    ((rs.foldl (fun acc u => usageAddJs acc u) z).outputTokens =
      z.outputTokens + (rs.map (fun r => r.outputTokens)).sum) ∧
    ((rs.foldl (fun acc u => usageAddJs acc u) z).totalTokens =
      z.totalTokens + (rs.map (fun r => r.totalTokens)).sum) := by
  induction rs generalizing z with
  | nil => simp
  | cons a t ih =>
    obtain ⟨h1, h2, h3⟩ := ih (usageAddJs z a)
    refine ⟨?_, ?_, ?_⟩
    · simp only [List.foldl_cons]
      rw [h1]
      simp only [usageAddJs, List.map_cons, List.sum_cons]
      omega
    · simp only [List.foldl_cons]
      rw [h2]
      simp only [usageAddJs, List.map_cons, List.sum_cons]
      omega
    · simp only [List.foldl_cons]
      rw [h3]
      simp only [usageAddJs, List.map_cons, List.sum_cons]
      omega

/-- The request count and integer token totals of `getMetrics` are the
length and plain sums of the recorded requests. -/
theorem getMetrics_totals (us : List TokenUsage) :
    (getMetrics us).totalRequests = us.length ∧
    (getMetrics us).totalInputTokens = (us.map (fun r => r.inputTokens)).sum ∧
    (getMetrics us).totalOutputTokens = (us.map (fun r => r.outputTokens)).sum ∧
    (getMetrics us).totalTokens = (us.map (fun r => r.totalTokens)).sum := by
  by_cases hz : us.length = 0
  · have he : us = [] := List.length_eq_zero.mp hz
    subst he
    simp [getMetrics]
  · simp only [getMetrics]
    rw [if_neg hz]
    refine ⟨rfl, ?_, ?_, ?_⟩ <;>
      (dsimp only; rw [foldl_add_eq_sum]; simp)

/-- C9 counterexample: summation of `estimatedCost` as the source performs
it — binary64 double addition — is NOT associative and the aggregate is NOT
invariant under reordering the same samples: with the costs JS parses from
0.1, 0.2 and 0.3, folding in the two orders gives the two distinct doubles
0.6000000000000001 (`1351079888211149 * 2^-51`) and 0.6
(`5404319552844595 * 2^-53`), exactly as `0.1 + 0.2 + 0.3` vs
`0.3 + 0.2 + 0.1` differ in JS. -/
theorem workflow_reduce_float_order_dependent :
    ([⟨0, 0, 0, decToDouble 1 10⟩, ⟨0, 0, 0, decToDouble 2 10⟩,
      ⟨0, 0, 0, decToDouble 3 10⟩] : List TokenUsageJs).foldl
        (fun acc u => usageAddJs acc u) usageZeroJs ≠
      ([⟨0, 0, 0, decToDouble 3 10⟩, ⟨0, 0, 0, decToDouble 2 10⟩,
        ⟨0, 0, 0, decToDouble 1 10⟩] : List TokenUsageJs).foldl
        (fun acc u => usageAddJs acc u) usageZeroJs ∧
    usageAddJs (usageAddJs ⟨0, 0, 0, decToDouble 1 10⟩ ⟨0, 0, 0, decToDouble 2 10⟩)
        ⟨0, 0, 0, decToDouble 3 10⟩ ≠
      usageAddJs ⟨0, 0, 0, decToDouble 1 10⟩
        (usageAddJs ⟨0, 0, 0, decToDouble 2 10⟩ ⟨0, 0, 0, decToDouble 3 10⟩) ∧
    jsAdd (jsAdd (decToDouble 1 10) (decToDouble 2 10)) (decToDouble 3 10) =
      ⟨1351079888211149, -51⟩ ∧
    jsAdd (decToDouble 1 10) (jsAdd (decToDouble 2 10) (decToDouble 3 10)) =
      ⟨5404319552844595, -53⟩ :=
  ⟨by decide, by decide, by decide, by decide⟩

/-- C9 amended: under the source's binary64 number semantics the
accumulator step is commutative (binary64 addition commutes, also on the
cost field), and aggregation of the INTEGER token fields — on which
binary64 addition is exact — is order-invariant: any permutation of the
same samples yields the same `inputTokens`/`outputTokens`/`totalTokens` in
the workflow reduce, and the same `totalRequests` and integer token totals
in `CostTracker.getMetrics`; but associativity and order-invariance fail
for the `estimatedCost` field (see the counterexample), so the cost
aggregate may depend on the order of the samples. -/
theorem tokenUsage_token_aggregation_invariant :
    (∀ a b : Dyadic, jsAdd a b = jsAdd b a) ∧
    (∀ a b : TokenUsageJs, usageAddJs a b = usageAddJs b a) ∧
    (∀ us₁ us₂ : List TokenUsageJs, us₁.Perm us₂ →
      ((us₁.foldl (fun acc u => usageAddJs acc u) usageZeroJs).inputTokens =
        (us₂.foldl (fun acc u => usageAddJs acc u) usageZeroJs).inputTokens ∧
       (us₁.foldl (fun acc u => usageAddJs acc u) usageZeroJs).outputTokens =
        (us₂.foldl (fun acc u => usageAddJs acc u) usageZeroJs).outputTokens ∧
       (us₁.foldl (fun acc u => usageAddJs acc u) usageZeroJs).totalTokens =
        (us₂.foldl (fun acc u => usageAddJs acc u) usageZeroJs).totalTokens)) ∧
    (∀ us₁ us₂ : List TokenUsage, us₁.Perm us₂ →
      ((getMetrics us₁).totalRequests = (getMetrics us₂).totalRequests ∧
       (getMetrics us₁).totalInputTokens = (getMetrics us₂).totalInputTokens ∧
       (getMetrics us₁).totalOutputTokens = (getMetrics us₂).totalOutputTokens ∧
       (getMetrics us₁).totalTokens = (getMetrics us₂).totalTokens)) := by
  refine ⟨jsAdd_comm, ?_, ?_, ?_⟩
  · intro a b
    simp only [usageAddJs, TokenUsageJs.mk.injEq]
    exact ⟨by omega, by omega, by omega, jsAdd_comm a.estimatedCost b.estimatedCost⟩
  · intro us₁ us₂ h
    obtain ⟨a1, a2, a3⟩ := usageAddJs_foldl_tokens us₁ usageZeroJs
    obtain ⟨b1, b2, b3⟩ := usageAddJs_foldl_tokens us₂ usageZeroJs
    refine ⟨?_, ?_, ?_⟩
    · rw [a1, b1, (h.map (fun r => r.inputTokens)).sum_eq]
    · rw [a2, b2, (h.map (fun r => r.outputTokens)).sum_eq]
    · rw [a3, b3, (h.map (fun r => r.totalTokens)).sum_eq]
  · intro us₁ us₂ h
    obtain ⟨a1, a2, a3, a4⟩ := getMetrics_totals us₁
    obtain ⟨b1, b2, b3, b4⟩ := getMetrics_totals us₂
    refine ⟨?_, ?_, ?_, ?_⟩
    · rw [a1, b1, h.length_eq]
    · rw [a2, b2, (h.map (fun r => r.inputTokens)).sum_eq]
    · rw [a3, b3, (h.map (fun r => r.outputTokens)).sum_eq]
    · rw [a4, b4, (h.map (fun r => r.totalTokens)).sum_eq]

/-- C9 witness: the amended theorem applied at concrete doubles and a
concrete transposition of two concrete samples. -/
theorem tokenUsage_token_aggregation_invariant_witness :
    jsAdd (decToDouble 1 10) (decToDouble 2 10) =
      jsAdd (decToDouble 2 10) (decToDouble 1 10) ∧
    (([⟨1, 2, 3, decToDouble 1 10⟩, ⟨10, 20, 30, decToDouble 3 10⟩] :
        List TokenUsageJs).foldl (fun acc u => usageAddJs acc u)
          usageZeroJs).totalTokens =
      (([⟨10, 20, 30, decToDouble 3 10⟩, ⟨1, 2, 3, decToDouble 1 10⟩] :
        List TokenUsageJs).foldl (fun acc u => usageAddJs acc u)
          usageZeroJs).totalTokens ∧
    (getMetrics [⟨1, 2, 3, 0⟩, ⟨10, 20, 30, 1⟩]).totalTokens =
      (getMetrics [⟨10, 20, 30, 1⟩, ⟨1, 2, 3, 0⟩]).totalTokens :=
  ⟨tokenUsage_token_aggregation_invariant.1 (decToDouble 1 10) (decToDouble 2 10),
   (tokenUsage_token_aggregation_invariant.2.2.1 _ _ (List.Perm.swap _ _ _)).2.2,
   (tokenUsage_token_aggregation_invariant.2.2.2 _ _ (List.Perm.swap _ _ _)).2.2.2⟩

/-! ## Claim C8 -/

/-- C8: For every (possibly missing or malformed) input correlation id,
`ensureCorrelationId` returns a valid UUID-v4-shaped token — equal to the
input when the input is already valid, the freshly generated value
otherwise (the hypothesis is the external guarantee that `crypto.randomUUID`
produces a UUID-v4-shaped token) — and the workflow's `execute` passes that
single id unchanged to every stage request it issues and returns it in the
workflow result. -/
theorem correlationId_valid_and_threaded :
    ∀ gen : String, isValidCorrelationId gen = true →
    (∀ id : Option String,
        isValidCorrelationId (ensureCorrelationId gen id) = true) ∧
    (∀ i : String, isValidCorrelationId i = true →
        ensureCorrelationId gen (some i) = i) ∧
    (∀ i : String, isValidCorrelationId i = false →
        ensureCorrelationId gen (some i) = gen) ∧
    (ensureCorrelationId gen none = gen) ∧
    (∀ researchProcess analysisProcess writerProcess
        (input : WorkflowInput),
      (∀ req ∈ (executeWorkflow gen researchProcess analysisProcess
          writerProcess input).2.2,
        req.correlationId = some (wfCid gen input)) ∧
      (∀ out, (executeWorkflow gen researchProcess analysisProcess
          writerProcess input).1 = .ok out →
        out.correlationId = wfCid gen input)) := by
  intro gen hgen
  refine ⟨?_, ?_, ?_, rfl, ?_⟩
  · intro id
    match id with
    | none => simpa [ensureCorrelationId] using hgen
    | some i =>
      simp only [ensureCorrelationId]
      split
      · next hc =>
        rw [Bool.and_eq_true] at hc
        exact hc.2
      · exact hgen
  · intro i hv
    have hne := valid_cid_ne_empty hv
    simp [ensureCorrelationId, hv, hne]
  · intro i hf
    simp [ensureCorrelationId, hf]
  · intro researchProcess analysisProcess writerProcess input
    rcases hR : researchProcess (wfResearchRequest gen input) with e | researchResult
    · rw [executeWorkflow_research_fails gen researchProcess analysisProcess
        writerProcess input e hR]
      refine ⟨?_, ?_⟩
      · intro req hreq
        simp only [List.mem_singleton] at hreq
        subst hreq
        rfl
      · intro out hout
        simp at hout
    · rcases hA : analysisProcess (wfAnalysisRequest gen input researchResult)
        with e | analysisResult
      · rw [executeWorkflow_analysis_fails gen researchProcess analysisProcess
          writerProcess input researchResult e hR hA]
        refine ⟨?_, ?_⟩
        · intro req hreq
          simp only [List.mem_cons, List.mem_singleton, List.not_mem_nil,
            or_false] at hreq
          rcases hreq with h | h <;> (subst h; rfl)
        · intro out hout
          simp at hout
      · rcases hW : writerProcess
          (wfWriterRequest gen input researchResult analysisResult)
          with e | writerResult
        · rw [executeWorkflow_writer_fails gen researchProcess analysisProcess
            writerProcess input researchResult analysisResult e hR hA hW]
          refine ⟨?_, ?_⟩
          · intro req hreq
            simp only [List.mem_cons, List.mem_singleton, List.not_mem_nil,
              or_false] at hreq
            rcases hreq with h | h | h <;> (subst h; rfl)
          · intro out hout
            simp at hout
        · rw [executeWorkflow_success gen researchProcess analysisProcess
            writerProcess input researchResult analysisResult writerResult hR hA hW]
          refine ⟨?_, ?_⟩
          · intro req hreq
            simp only [List.mem_cons, List.mem_singleton, List.not_mem_nil,
              or_false] at hreq
            rcases hreq with h | h | h <;> (subst h; rfl)
          · intro out hout
            simp only [Except.ok.injEq] at hout
            subst hout
            rfl

/-- A concrete UUID-v4-shaped token (version nibble 4, variant nibble a). -/
def sampleUuid : String := "123e4567-e89b-42d3-a456-426614174000"

/-- A stage client that always succeeds with a fixed result, for witnesses. -/
def wOkClient (r : String) : AgentInput → Except JsError AgentOutput :=
  fun _ => .ok ⟨"c", .vStr r, ⟨"agent", 0, ⟨1, 2, 3, 0⟩, [], none⟩⟩

/-- C8 witness: the theorem applied at a concrete generated id, a concrete
malformed input id, a concrete valid input id, and a concrete workflow. -/
theorem correlationId_valid_and_threaded_witness :
    isValidCorrelationId (ensureCorrelationId sampleUuid (some "not-a-uuid")) = true ∧
    ensureCorrelationId sampleUuid (some sampleUuid) = sampleUuid ∧
    (∀ req ∈ (executeWorkflow sampleUuid (wOkClient "r") (wOkClient "a")
        (wOkClient "w") { query := "Q" }).2.2,
      req.correlationId = some (wfCid sampleUuid { query := "Q" })) :=
  ⟨(correlationId_valid_and_threaded sampleUuid (by decide)).1 (some "not-a-uuid"),
   (correlationId_valid_and_threaded sampleUuid (by decide)).2.1 sampleUuid (by decide),
   ((correlationId_valid_and_threaded sampleUuid (by decide)).2.2.2.2
     (wOkClient "r") (wOkClient "a") (wOkClient "w") { query := "Q" }).1⟩

/-! ## Claim C10 -/

/-- C10: When a local tool and an MCP tool are registered under the same
name, resolution deterministically prefers the local tool: whenever the
local `find` succeeds, `invokeTool` executes that local executor — never the
MCP call — whatever MCP tools and client are present; and the catalog built
by `buildFunctionDeclarations` lists all local tools first, in registration
order, followed by all MCP tools in listing order. -/
theorem invokeTool_local_precedence :
    ∀ (agent : AgentState) (name : String) (args : Args) (t : Tool),
      agent.tools.find? (fun tool => tool.name == name) = some t →
      invokeTool agent name args = t.execute args ∧
      buildFunctionDeclarations agent =
        agent.tools.map (fun tool => ⟨tool.name, tool.description, tool.parameters⟩) ++
        agent.mcpTools.map (fun m => ⟨m.name, m.description, m.inputSchema⟩) := by
  intro agent name args t hfind
  constructor
  · simp [invokeTool, hfind]
  · rw [buildFunctionDeclarations, foldl_push_eq_map, foldl_push_eq_map]
    simp

/-- A local tool named "dup", for the C10 witness. -/
def dupLocalTool : Tool :=
  ⟨"dup", "local duplicate", .vObj [], fun _ => .ok (.vStr "local")⟩

/-- An agent registering both a local tool and an MCP tool named "dup", whose
MCP client would answer with different content, for the C10 witness. -/
def dupAgent : AgentState :=
  ⟨"dup-agent", "SP", "gemini-1.5-pro",
   [dupLocalTool],
   [⟨"dup", "remote duplicate", .vObj []⟩],
   some (fun _ => .ok ⟨[⟨"text", some "remote", none⟩], false⟩)⟩

/-- C10 witness: the theorem applied to the duplicate-name agent; the local
executor's answer is what `invokeTool` returns. -/
theorem invokeTool_local_precedence_witness :
    invokeTool dupAgent "dup" [] = dupLocalTool.execute [] ∧
    buildFunctionDeclarations dupAgent =
      dupAgent.tools.map (fun tool => ⟨tool.name, tool.description, tool.parameters⟩) ++
      dupAgent.mcpTools.map (fun m => ⟨m.name, m.description, m.inputSchema⟩) ∧
    invokeTool dupAgent "dup" [] = .ok (.vStr "local") :=
  ⟨(invokeTool_local_precedence dupAgent "dup" [] dupLocalTool rfl).1,
   (invokeTool_local_precedence dupAgent "dup" [] dupLocalTool rfl).2,
   rfl⟩

/-! ## Claim C3 -/

/-- When every attempt in range fails, the `p-retry` loop runs all attempts
and returns the last attempt's outcome together with the attempt count. -/
theorem pRetryGo_all_fail {α : Type} (fn : Nat → Except JsError α) :
    ∀ (retriesLeft start : Nat),
      (∀ a, start ≤ a → a ≤ start + retriesLeft → ∃ e, fn a = .error e) →
      pRetryGo fn start retriesLeft = (fn (start + retriesLeft), start + retriesLeft) := by
  intro retriesLeft
  induction retriesLeft with
  | zero =>
    intro start h
    obtain ⟨e, he⟩ := h start (Nat.le_refl _) (by omega)
    simp [pRetryGo, he]
  | succ k ih =>
    intro start h
    obtain ⟨e, he⟩ := h start (Nat.le_refl _) (by omega)
    have hrest := ih (start + 1) (fun a ha1 ha2 => h a (by omega) (by omega))
    have harith : start + 1 + k = start + (k + 1) := by omega
    simp only [pRetryGo, he]
    rw [hrest, harith]

/-- A transport that always answers HTTP 400 with a validation-error body. -/
def cexTransport400 : Nat → HttpResponse :=
  fun _ => ⟨400, "Invalid request format",
    ⟨"x", .vNull, ⟨"x", 0, ⟨0, 0, 0, 0⟩, [], none⟩⟩⟩

/-- C3 counterexample: against a transport that always returns a validation
(HTTP 400) error — which the repository's own `isRetryableError` classifies
as non-retryable — `BaseAgentClient.process` still makes 4 attempts
(`retries + 1`) before failing, not the single attempt the claim requires:
its `p-retry` call has no retryable-error predicate. -/
theorem clientProcess_retries_validation_error :
    clientProcess cexTransport400 =
      (.error ⟨"Agent returned status 400: Invalid request format"⟩, 4) ∧
    isRetryableError ⟨"Agent returned status 400: Invalid request format"⟩ = false ∧
    (4 : Nat) ≠ 1 :=
  ⟨rfl, by decide, by decide⟩

/-- C3 amended: the retry-with-backoff policy of `BaseAgentClient.process`
is applied to every failure class alike — it never consults
`isRetryableError` — so a non-retryable failure such as a validation
(HTTP 400) error is retried like a timeout, and a persistently failing
transport sees exactly `retries + 1 = 4` attempts before the last attempt's
error is thrown. -/
theorem clientProcess_retries_every_failure :
    ∀ transport : Nat → HttpResponse,
      (∀ attempt, 1 ≤ attempt → attempt ≤ 4 → (transport attempt).statusCode ≠ 200) →
      clientProcess transport =
        (.error ⟨"Agent returned status " ++ toString (transport 4).statusCode ++
          ": " ++ (transport 4).bodyText⟩, 4) := by
  intro transport h
  have hall : ∀ a, 1 ≤ a → a ≤ 1 + 3 →
      ∃ e, processAttempt transport a = .error e := by
    intro a h1 h2
    refine ⟨⟨"Agent returned status " ++ toString (transport a).statusCode ++
      ": " ++ (transport a).bodyText⟩, ?_⟩
    simp [processAttempt, h a h1 (by omega)]
  have := pRetryGo_all_fail (processAttempt transport) 3 1 hall
  rw [clientProcess, pRetryRun, this]
  have h4 := h 4 (by omega) (by omega)
  simp [processAttempt, h4]

/-- C3 witness: the amended theorem applied to the always-400 transport. -/
theorem clientProcess_retries_every_failure_witness :
    clientProcess cexTransport400 =
      (.error ⟨"Agent returned status " ++ toString (cexTransport400 4).statusCode ++
        ": " ++ (cexTransport400 4).bodyText⟩, 4) :=
  clientProcess_retries_every_failure cexTransport400
    (by intro a h1 h2; simp [cexTransport400])

/-! ## Claim C1 -/

/-- A fixed research-stage answer with result "r1". -/
def cexR1Out : AgentOutput :=
  ⟨"c", .vStr "r1", ⟨"research-agent", 0, ⟨1, 2, 3, 0⟩, [], none⟩⟩

/-- A fixed research-stage answer with result "r2". -/
def cexR2Out : AgentOutput :=
  ⟨"c", .vStr "r2", ⟨"research-agent", 0, ⟨1, 2, 3, 0⟩, [], none⟩⟩

/-- A research client answering "r1". -/
def cexResearchR1 : AgentInput → Except JsError AgentOutput := fun _ => .ok cexR1Out

/-- A research client answering "r2". -/
def cexResearchR2 : AgentInput → Except JsError AgentOutput := fun _ => .ok cexR2Out

/-- An analysis client whose retries are exhausted: it yields the timeout
error its internal retry policy ends with. -/
def cexAnalysisTimeout : AgentInput → Except JsError AgentOutput :=
  fun _ => .error ⟨"connect ETIMEDOUT"⟩

/-- A writer client that would succeed. -/
def cexWriterOk : AgentInput → Except JsError AgentOutput :=
  fun _ => .ok ⟨"c", .vStr "w", ⟨"writer-agent", 0, ⟨1, 2, 3, 0⟩, [], none⟩⟩

/-- The workflow input used by the C1 runs. -/
def cexWfInput : WorkflowInput := { query := "Q", correlationId := some sampleUuid }

/-- C1 counterexample: two 3-stage runs whose stage 2 fails identically but
whose single collected stage-1 result differs ("r1" vs "r2" — visible in the
`previousResults` of the issued stage-2 request) make `execute` fail with
the IDENTICAL error value, the raw stage-2 error. Hence the thrown error is
not a StageFailureError carrying the collected results: no function of the
error can recover them, and no such error type exists in the code. -/
theorem workflow_error_carries_no_results :
    (executeWorkflow sampleUuid cexResearchR1 cexAnalysisTimeout cexWriterOk
      cexWfInput).1 = .error ⟨"connect ETIMEDOUT"⟩ ∧
    (executeWorkflow sampleUuid cexResearchR2 cexAnalysisTimeout cexWriterOk
      cexWfInput).1 = .error ⟨"connect ETIMEDOUT"⟩ ∧
    ((executeWorkflow sampleUuid cexResearchR1 cexAnalysisTimeout cexWriterOk
      cexWfInput).2.2.map (fun r => r.previousResults)) =
      [none, some [⟨"research-agent", .vStr "r1"⟩]] ∧
    ((executeWorkflow sampleUuid cexResearchR2 cexAnalysisTimeout cexWriterOk
      cexWfInput).2.2.map (fun r => r.previousResults)) =
      [none, some [⟨"research-agent", .vStr "r2"⟩]] ∧
    ¬∃ f : JsError → List PrevResult,
        f ⟨"connect ETIMEDOUT"⟩ = [⟨"research-agent", .vStr "r1"⟩] ∧
        f ⟨"connect ETIMEDOUT"⟩ = [⟨"research-agent", .vStr "r2"⟩] := by
  refine ⟨rfl, rfl, rfl, rfl, ?_⟩
  rintro ⟨f, h1, h2⟩
  have h3 := h1.symm.trans h2
  injection h3 with hh _
  injection hh with _ hr
  injection hr with hs
  exact absurd hs (by decide)

/-- C1 amended: in a 3-stage workflow whose stage 2 fails after exhausting
its retries, `execute` fails — no partial-result fallback — by rethrowing
the failing stage's error UNCHANGED; the error carries no stage results.
The single collected stage-1 result (collected-results list of length
exactly 1) is reflected only in the failure log's `completedAgents = 1` and
in the `previousResults` context that had been passed to stage 2. -/
theorem workflow_stage2_failure_propagates (gen : String)
    (researchProcess analysisProcess writerProcess :
      AgentInput → Except JsError AgentOutput)
    (input : WorkflowInput) (researchResult : AgentOutput) (e : JsError)
    (h1 : researchProcess (wfResearchRequest gen input) = .ok researchResult)
    (h2 : analysisProcess (wfAnalysisRequest gen input researchResult) = .error e) :
    executeWorkflow gen researchProcess analysisProcess writerProcess input =
      (.error e, some ⟨wfCid gen input, 1⟩,
       [wfResearchRequest gen input, wfAnalysisRequest gen input researchResult]) ∧
    (wfAnalysisRequest gen input researchResult).previousResults =
      some [⟨"research-agent", researchResult.result⟩] :=
  ⟨executeWorkflow_analysis_fails gen researchProcess analysisProcess
    writerProcess input researchResult e h1 h2, rfl⟩

/-- C1 witness: the amended theorem applied to a concrete stage-2-failing
run. -/
theorem workflow_stage2_failure_propagates_witness :
    executeWorkflow sampleUuid cexResearchR1 cexAnalysisTimeout cexWriterOk
      cexWfInput =
      (.error ⟨"connect ETIMEDOUT"⟩, some ⟨wfCid sampleUuid cexWfInput, 1⟩,
       [wfResearchRequest sampleUuid cexWfInput,
        wfAnalysisRequest sampleUuid cexWfInput cexR1Out]) ∧
    (wfAnalysisRequest sampleUuid cexWfInput cexR1Out).previousResults =
      some [⟨"research-agent", cexR1Out.result⟩] :=
  workflow_stage2_failure_propagates sampleUuid cexResearchR1 cexAnalysisTimeout
    cexWriterOk cexWfInput cexR1Out ⟨"connect ETIMEDOUT"⟩ rfl rfl

/-! ## Claim C2 -/

/-- A model script: call 0 answers with text "hello" at usage (10, 5); any
later call — in particular the post-loop usage-probe call 1 — reports usage
(7, 3). -/
def c2script : Nat → GenerateContentResult × GeminiTokenUsage
  | 0 => (⟨[⟨some ⟨some [{ text := some "hello" }]⟩⟩]⟩, ⟨10, 5, 15⟩)
  | _ => (⟨[]⟩, ⟨7, 3, 10⟩)

/-- A tool-less agent on the default pro model. -/
def c2agent : AgentState := ⟨"research-agent", "SP", "gemini-1.5-pro", [], [], none⟩

/-- C2 at the failing input: the loop makes 1 model call (iterations = 1),
yet `processRequest` makes 2 — it issues one extra `generateContent` call
after the loop solely to retrieve token counts — and the recorded token
usage is the extra call's (7, 3), not the loop call's (10, 5): the per-call
usages of the loop are not accumulated. -/
theorem processRequest_duplicate_model_call :
    (processRequest c2script sampleUuid c2agent { query := "Q" }).2.1 = 2 ∧
    (∃ out, (processRequest c2script sampleUuid c2agent { query := "Q" }).1 =
        .ok out ∧
      out.metadata.iterations = some 1 ∧
      out.metadata.tokenUsage.inputTokens = 7 ∧
      out.metadata.tokenUsage.outputTokens = 3) ∧
    (c2script 0).2.promptTokenCount = 10 ∧
    (7 : Nat) ≠ 10 := by
  exact ⟨rfl, ⟨_, rfl, rfl, rfl, rfl⟩, rfl, by decide⟩

/-! ## Loop step lemmas -/

/-- With zero fuel the loop exits at the failed condition check. -/
theorem loopGo_zero (script : Nat → GenerateContentResult)
    (executor : FunctionExecutor) (msgs : List Message) (acc : List CallRecord)
    (iteration : Nat) :
    loopGo script executor msgs acc iteration 0 = .ranOut iteration := rfl

/-- One batch turn: the loop executes the batch, appends the two paired
messages and the successful records, and continues. -/
theorem loopGo_batch_step (script : Nat → GenerateContentResult)
    (executor : FunctionExecutor) (msgs : List Message) (acc : List CallRecord)
    (iteration fuel : Nat) (call : FunctionCall) (rest : List FunctionCall)
    (h : extractFunctionCalls (script iteration) = call :: rest) :
    loopGo script executor msgs acc iteration (fuel + 1) =
      loopGo script executor
        (msgs ++ [mkCallBatchMessage (call :: rest),
          mkResponsesMessage ((call :: rest).map (mkFunctionResponse executor))])
        (acc ++ successRecords executor (call :: rest)) (iteration + 1) fuel := by
  simp only [loopGo, h]

/-- One text turn: the loop returns the final answer. -/
theorem loopGo_text_step (script : Nat → GenerateContentResult)
    (executor : FunctionExecutor) (msgs : List Message) (acc : List CallRecord)
    (iteration fuel : Nat) (t : String)
    (h1 : extractFunctionCalls (script iteration) = [])
    (h2 : extractTextResponse (script iteration) = some t) :
    loopGo script executor msgs acc iteration (fuel + 1) =
      .success ⟨some t, acc, iteration + 1⟩ := by
  simp only [loopGo, h1, h2]

/-- One malformed turn (neither calls nor text): the loop breaks. -/
theorem loopGo_malformed_step (script : Nat → GenerateContentResult)
    (executor : FunctionExecutor) (msgs : List Message) (acc : List CallRecord)
    (iteration fuel : Nat)
    (h1 : extractFunctionCalls (script iteration) = [])
    (h2 : extractTextResponse (script iteration) = none) :
    loopGo script executor msgs acc iteration (fuel + 1) = .broke (iteration + 1) := by
  simp only [loopGo, h1, h2]

/-- Every record produced while executing a batch comes from a successful
execution of exactly that call. -/
theorem successRecords_sound (executor : FunctionExecutor)
    (calls : List FunctionCall) :
    ∀ rec ∈ successRecords executor calls,
      executor rec.name rec.args = .ok rec.result := by
  intro rec hrec
  simp only [successRecords, List.mem_filterMap] at hrec
  obtain ⟨call, _, hmatch⟩ := hrec
  cases hex : executor call.name call.args with
  | ok v =>
    rw [hex] at hmatch
    injection hmatch with he
    subst he
    exact hex
  | error m =>
    rw [hex] at hmatch
    cases hmatch

/-- Invariant: in a successful run every recorded entry of `functionCalls`
stems from a successful executor run. -/
theorem loopGo_success_entries (script : Nat → GenerateContentResult)
    (executor : FunctionExecutor) :
    ∀ (fuel : Nat) (msgs : List Message) (acc : List CallRecord)
      (iteration : Nat) (r : FunctionCallingResult),
      loopGo script executor msgs acc iteration fuel = .success r →
      (∀ rec ∈ acc, executor rec.name rec.args = .ok rec.result) →
      ∀ rec ∈ r.functionCalls, executor rec.name rec.args = .ok rec.result := by
  intro fuel
  induction fuel with
  | zero =>
    intro msgs acc iteration r h hacc
    rw [loopGo_zero] at h
    cases h
  | succ k ih =>
    intro msgs acc iteration r h hacc
    cases hE : extractFunctionCalls (script iteration) with
    | nil =>
      cases hT : extractTextResponse (script iteration) with
      | some t =>
        rw [loopGo_text_step script executor msgs acc iteration k t hE hT] at h
        injection h with he
        subst he
        exact hacc
      | none =>
        rw [loopGo_malformed_step script executor msgs acc iteration k hE hT] at h
        cases h
    | cons call rest =>
      rw [loopGo_batch_step script executor msgs acc iteration k call rest hE] at h
      refine ih _ _ _ _ h ?_
      intro rec hrec
      rcases List.mem_append.mp hrec with hin | hin
      · exact hacc rec hin
      · exact successRecords_sound executor (call :: rest) rec hin

/-! ## Settlement-order lemmas -/

/-- Selecting indices `order` from `calls` and keeping the successful ones
is `successRecords` of the selected calls. -/
theorem successRecordsIn_eq (executor : FunctionExecutor)
    (calls : List FunctionCall) (order : List Nat) :
    successRecordsIn executor calls order =
      successRecords executor (order.filterMap (fun k => calls[k]?)) := rfl

/-- Selecting every index in order is the identity selection. -/
theorem filterMap_getElem_range {α : Type} (l : List α) :
    (List.range l.length).filterMap (fun k => l[k]?) = l := by
  induction l with
  | nil => simp
  | cons a t ih =>
    rw [List.length_cons, List.range_succ_eq_map]
    simp only [List.filterMap_cons, List.getElem?_cons_zero, List.filterMap_map]
    have hcomp : ((fun k => (a :: t)[k]?) ∘ Nat.succ) = (fun k => t[k]?) := by
      funext k
      simp
    rw [hcomp, ih]

/-- Promises settling in request order push exactly the request-order
records. -/
theorem successRecordsIn_range (executor : FunctionExecutor)
    (calls : List FunctionCall) :
    successRecordsIn executor calls (List.range calls.length) =
      successRecords executor calls := by
  rw [successRecordsIn_eq, filterMap_getElem_range]

/-- Whatever order the executor promises settle in — any permutation of the
call indices — the records pushed for one batch are a permutation of the
request-order records: one record per successful call, failed calls
omitted. -/
theorem successRecordsIn_perm (executor : FunctionExecutor)
    (calls : List FunctionCall) (order : List Nat)
    (h : order.Perm (List.range calls.length)) :
    (successRecordsIn executor calls order).Perm
      (successRecords executor calls) := by
  rw [← successRecordsIn_range executor calls, successRecordsIn_eq,
    successRecordsIn_eq]
  exact (h.filterMap (fun k => calls[k]?)).filterMap _

/-- One batch turn of the schedule-generalized loop. -/
theorem loopGoSched_batch_step (script : Nat → GenerateContentResult)
    (executor : FunctionExecutor) (sched : Nat → List Nat) (msgs : List Message)
    (acc : List CallRecord) (iteration fuel : Nat) (call : FunctionCall)
    (rest : List FunctionCall)
    (h : extractFunctionCalls (script iteration) = call :: rest) :
    loopGoSched script executor sched msgs acc iteration (fuel + 1) =
      loopGoSched script executor sched
        (msgs ++ [mkCallBatchMessage (call :: rest),
          mkResponsesMessage ((call :: rest).map (mkFunctionResponse executor))])
        (acc ++ successRecordsIn executor (call :: rest) (sched iteration))
        (iteration + 1) fuel := by
  simp only [loopGoSched, h]

/-- One text turn of the schedule-generalized loop. -/
theorem loopGoSched_text_step (script : Nat → GenerateContentResult)
    (executor : FunctionExecutor) (sched : Nat → List Nat) (msgs : List Message)
    (acc : List CallRecord) (iteration fuel : Nat) (t : String)
    (h1 : extractFunctionCalls (script iteration) = [])
    (h2 : extractTextResponse (script iteration) = some t) :
    loopGoSched script executor sched msgs acc iteration (fuel + 1) =
      .success ⟨some t, acc, iteration + 1⟩ := by
  simp only [loopGoSched, h1, h2]

/-- One malformed turn of the schedule-generalized loop. -/
theorem loopGoSched_malformed_step (script : Nat → GenerateContentResult)
    (executor : FunctionExecutor) (sched : Nat → List Nat) (msgs : List Message)
    (acc : List CallRecord) (iteration fuel : Nat)
    (h1 : extractFunctionCalls (script iteration) = [])
    (h2 : extractTextResponse (script iteration) = none) :
    loopGoSched script executor sched msgs acc iteration (fuel + 1) =
      .broke (iteration + 1) := by
  simp only [loopGoSched, h1, h2]

/-- Invariant: under any settlement schedule, every recorded entry of a
successful run stems from a successful executor run. -/
theorem loopGoSched_success_entries (script : Nat → GenerateContentResult)
    (executor : FunctionExecutor) (sched : Nat → List Nat) :
    ∀ (fuel : Nat) (msgs : List Message) (acc : List CallRecord)
      (iteration : Nat) (r : FunctionCallingResult),
      loopGoSched script executor sched msgs acc iteration fuel = .success r →
      (∀ rec ∈ acc, executor rec.name rec.args = .ok rec.result) →
      ∀ rec ∈ r.functionCalls, executor rec.name rec.args = .ok rec.result := by
  intro fuel
  induction fuel with
  | zero =>
    intro msgs acc iteration r h hacc
    cases h
  | succ k ih =>
    intro msgs acc iteration r h hacc
    cases hE : extractFunctionCalls (script iteration) with
    | nil =>
      cases hT : extractTextResponse (script iteration) with
      | some t =>
        rw [loopGoSched_text_step script executor sched msgs acc iteration k t
          hE hT] at h
        injection h with he
        subst he
        exact hacc
      | none =>
        rw [loopGoSched_malformed_step script executor sched msgs acc iteration k
          hE hT] at h
        cases h
    | cons call rest =>
      rw [loopGoSched_batch_step script executor sched msgs acc iteration k call
        rest hE] at h
      refine ih _ _ _ _ h ?_
      intro rec hrec
      rcases List.mem_append.mp hrec with hin | hin
      · exact hacc rec hin
      · exact successRecords_sound executor _ rec hin

/-- With promises settling in request order, the schedule-generalized loop
is exactly the serialized `loopGo` used by the other claims. -/
theorem loopGoSched_requestOrder (script : Nat → GenerateContentResult)
    (executor : FunctionExecutor) :
    ∀ (fuel : Nat) (msgs : List Message) (acc : List CallRecord)
      (iteration : Nat),
      loopGoSched script executor (requestOrderSched script) msgs acc iteration
        fuel = loopGo script executor msgs acc iteration fuel := by
  intro fuel
  induction fuel with
  | zero =>
    intro msgs acc iteration
    rfl
  | succ k ih =>
    intro msgs acc iteration
    cases hE : extractFunctionCalls (script iteration) with
    | nil =>
      cases hT : extractTextResponse (script iteration) with
      | some t =>
        rw [loopGoSched_text_step script executor _ msgs acc iteration k t hE hT,
          loopGo_text_step script executor msgs acc iteration k t hE hT]
      | none =>
        rw [loopGoSched_malformed_step script executor _ msgs acc iteration k
          hE hT, loopGo_malformed_step script executor msgs acc iteration k hE hT]
    | cons call rest =>
      rw [loopGoSched_batch_step script executor _ msgs acc iteration k call rest
        hE, loopGo_batch_step script executor msgs acc iteration k call rest hE]
      have hord : successRecordsIn executor (call :: rest)
          (requestOrderSched script iteration) =
          successRecords executor (call :: rest) := by
        show successRecordsIn executor (call :: rest)
          (List.range (extractFunctionCalls (script iteration)).length) = _
        rw [hE]
        exact successRecordsIn_range executor (call :: rest)
      rw [hord, ih]

/-! ## Claim C5 -/

/-- A model script: call 0 requests the single tool call "t", call 1 answers
with text "done". -/
def c5script : Nat → GenerateContentResult
  | 0 => ⟨[⟨some ⟨some [{ functionCall := some ⟨"t", some []⟩ }]⟩⟩]⟩
  | _ => ⟨[⟨some ⟨some [{ text := some "done" }]⟩⟩]⟩

/-- An executor that always throws. -/
def c5exec : FunctionExecutor := fun _ _ => .error "boom"

/-- A model script: call 0 requests the batch ["search", "summarize"],
call 1 answers with text. -/
def c7script : Nat → GenerateContentResult
  | 0 => ⟨[⟨some ⟨some [{ functionCall := some ⟨"search", some []⟩ },
                        { functionCall := some ⟨"summarize", some []⟩ }]⟩⟩]⟩
  | _ => ⟨[⟨some ⟨some [{ text := some "done" }]⟩⟩]⟩

/-- An executor for which "search" throws and "summarize" succeeds. -/
def c7exec : FunctionExecutor := fun name _ =>
  if name = "search" then .error "search failed" else .ok (.vStr "summary")

/-- C5 counterexample: a run in which exactly one tool call is executed and
its execution fails returns a successful result whose `functionCalls` list
is EMPTY — the failed call contributes no (name, args, result) entry, since
the source pushes records only in the non-throwing branch — contradicting
the claimed one-entry-per-executed-call including failures (length 1). -/
theorem loop_omits_failed_calls :
    extractFunctionCalls (c5script 0) = [⟨"t", []⟩] ∧
    c5exec "t" [] = .error "boom" ∧
    (executeFunctionCallingLoop c5script [] [] c5exec 10).1 =
      .ok ⟨some "done", [], 2⟩ ∧
    ([] : List CallRecord).length ≠ 1 :=
  ⟨rfl, rfl, rfl, by decide⟩

/-- C5 amended: on every successful loop run — under every
promise-settlement order — the returned result carries, besides the text
answer and the iteration count, one (name, args, result) entry per
SUCCESSFULLY executed tool call, each recording a genuine successful
execution; calls whose execution failed are omitted (they surface only as
error entries in the conversation). Each batch turn appends its
non-throwing calls' records in promise-settlement order: for any settlement
order (a permutation of the call indices) the appended records are a
permutation of the request-order records, equal to them when the promises
settle in request order, in which case the schedule-generalized loop is
exactly the serialized `loopGo`. -/
theorem loop_records_successful_calls
    (script : Nat → GenerateContentResult) (executor : FunctionExecutor) :
    (∀ (sched : Nat → List Nat) (tools : List FunctionDeclaration)
       (initialMessages : List Message) (maxIterations : Nat)
       (r : FunctionCallingResult) (n : Nat),
      executeFunctionCallingLoopSched script sched initialMessages tools
        executor maxIterations = (.ok r, n) →
      ∀ rec ∈ r.functionCalls, executor rec.name rec.args = .ok rec.result) ∧
    (∀ (calls : List FunctionCall) (order : List Nat),
      order.Perm (List.range calls.length) →
      (successRecordsIn executor calls order).Perm
        (successRecords executor calls)) ∧
    (∀ (sched : Nat → List Nat) (msgs : List Message) (acc : List CallRecord)
       (iteration fuel : Nat) (call : FunctionCall) (rest : List FunctionCall),
      extractFunctionCalls (script iteration) = call :: rest →
      loopGoSched script executor sched msgs acc iteration (fuel + 1) =
        loopGoSched script executor sched
          (msgs ++ [mkCallBatchMessage (call :: rest),
            mkResponsesMessage ((call :: rest).map (mkFunctionResponse executor))])
          (acc ++ successRecordsIn executor (call :: rest) (sched iteration))
          (iteration + 1) fuel) ∧
    (∀ (msgs : List Message) (acc : List CallRecord) (iteration fuel : Nat),
      loopGoSched script executor (requestOrderSched script) msgs acc iteration
        fuel = loopGo script executor msgs acc iteration fuel) := by
  refine ⟨?_, successRecordsIn_perm executor, ?_, ?_⟩
  · intro sched tools initialMessages maxIterations r n h
    simp only [executeFunctionCallingLoopSched] at h
    cases hL : loopGoSched script executor sched initialMessages [] 0
        maxIterations with
    | success r0 =>
      rw [hL] at h
      simp only [Prod.mk.injEq, Except.ok.injEq] at h
      obtain ⟨he, _⟩ := h
      subst he
      exact loopGoSched_success_entries script executor sched maxIterations
        initialMessages [] 0 r0 hL (by simp)
    | broke i =>
      rw [hL] at h
      dsimp only at h
      split at h <;> simp at h
    | ranOut i =>
      rw [hL] at h
      dsimp only at h
      split at h <;> simp at h
  · intro sched msgs acc iteration fuel call rest h
    exact loopGoSched_batch_step script executor sched msgs acc iteration fuel
      call rest h
  · intro msgs acc iteration fuel
    exact loopGoSched_requestOrder script executor fuel msgs acc iteration

/-- C5 witness: the amended theorem applied to a concrete successful run
(showing its entry is a genuine successful execution), to a concrete batch
whose promises settle in reversed order (the pushed records are a
permutation of the request-order ones), and to a concrete batch turn under
a schedule. -/
theorem loop_records_successful_calls_witness :
    (∀ rec ∈ (⟨some "done", [⟨"t", [], .vStr "ok"⟩], 2⟩ :
        FunctionCallingResult).functionCalls,
      (fun _ _ => (.ok (.vStr "ok") : Except String Value)) rec.name rec.args =
        .ok rec.result) ∧
    (successRecordsIn c7exec [⟨"search", []⟩, ⟨"summarize", []⟩] [1, 0]).Perm
      (successRecords c7exec [⟨"search", []⟩, ⟨"summarize", []⟩]) ∧
    loopGoSched c5script c5exec (fun _ => [0]) [] [] 0 1 =
      loopGoSched c5script c5exec (fun _ => [0])
        ([] ++ [mkCallBatchMessage [⟨"t", []⟩],
          mkResponsesMessage ([⟨"t", []⟩].map (mkFunctionResponse c5exec))])
        ([] ++ successRecordsIn c5exec [⟨"t", []⟩] [0]) 1 0 :=
  ⟨(loop_records_successful_calls c5script
      (fun _ _ => (.ok (.vStr "ok") : Except String Value))).1 (fun _ => [0])
      [] [] 10 ⟨some "done", [⟨"t", [], .vStr "ok"⟩], 2⟩ 2 rfl,
   (loop_records_successful_calls c7script c7exec).2.1
      [⟨"search", []⟩, ⟨"summarize", []⟩] [1, 0]
      (by rw [show List.range ([⟨"search", []⟩, ⟨"summarize", []⟩] :
          List FunctionCall).length = [0, 1] from rfl]
          exact List.Perm.swap 0 1 []),
   (loop_records_successful_calls c5script c5exec).2.2.1 (fun _ => [0])
      [] [] 0 0 ⟨"t", []⟩ [] rfl⟩

/-! ## Claims C6 and C7 -/

/-- C6: Every tool invocation that fails — thrown executor error, error-
flagged remote tool response, or unknown tool name, each of which
`invokeTool` turns into a thrown error — is converted by the loop into an
error-flagged result datum (`\x7b error: message \x7d`) placed in the
appended responses message rather than raised out of the loop, and the loop
continues to the next model turn (the batch step recurses instead of
terminating). -/
theorem tool_failures_stay_in_loop
    (script : Nat → GenerateContentResult) (executor : FunctionExecutor) :
    ∀ (msgs : List Message) (acc : List CallRecord) (iteration fuel : Nat)
      (call : FunctionCall) (rest : List FunctionCall),
      extractFunctionCalls (script iteration) = call :: rest →
      (loopGo script executor msgs acc iteration (fuel + 1) =
        loopGo script executor
          (msgs ++ [mkCallBatchMessage (call :: rest),
            mkResponsesMessage ((call :: rest).map (mkFunctionResponse executor))])
          (acc ++ successRecords executor (call :: rest)) (iteration + 1) fuel) ∧
      (∀ c ∈ call :: rest, ∀ m, executor c.name c.args = .error m →
        mkFunctionResponse executor c = ⟨c.name, .vObj [("error", .vStr m)]⟩) ∧
      (∀ (agent : AgentState) (name : String) (args : Args),
        agent.tools.find? (fun t => t.name == name) = none →
        agent.mcpTools.find? (fun t => t.name == name) = none →
        invokeTool agent name args = .error ("Tool not found: " ++ name)) := by
  intro msgs acc iteration fuel call rest h
  refine ⟨loopGo_batch_step script executor msgs acc iteration fuel call rest h,
    ?_, ?_⟩
  · intro c _ m hm
    simp [mkFunctionResponse, hm]
  · intro agent name args hLocal hMcp
    cases hc : agent.mcpClient with
    | none => simp [invokeTool, hLocal, hMcp, hc]
    | some mc => simp [invokeTool, hLocal, hMcp, hc]

/-- C6 witness: the theorem applied to the concrete batch whose "search"
call throws: the error datum is placed in the conversation and the loop
continues, and an unknown tool name yields the thrown not-found error that
the loop would likewise absorb. -/
theorem tool_failures_stay_in_loop_witness :
    (loopGo c7script c7exec [] [] 0 1 =
      loopGo c7script c7exec
        ([] ++ [mkCallBatchMessage [⟨"search", []⟩, ⟨"summarize", []⟩],
          mkResponsesMessage ([⟨"search", []⟩, ⟨"summarize", []⟩].map
            (mkFunctionResponse c7exec))])
        ([] ++ successRecords c7exec [⟨"search", []⟩, ⟨"summarize", []⟩]) 1 0) ∧
    mkFunctionResponse c7exec ⟨"search", []⟩ =
      ⟨"search", .vObj [("error", .vStr "search failed")]⟩ ∧
    invokeTool c2agent "nosuch" [] = .error ("Tool not found: " ++ "nosuch") :=
  ⟨(tool_failures_stay_in_loop c7script c7exec [] [] 0 0 ⟨"search", []⟩
      [⟨"summarize", []⟩] rfl).1,
   (tool_failures_stay_in_loop c7script c7exec [] [] 0 0 ⟨"search", []⟩
      [⟨"summarize", []⟩] rfl).2.1 ⟨"search", []⟩ (by simp) "search failed" rfl,
   (tool_failures_stay_in_loop c7script c7exec [] [] 0 0 ⟨"search", []⟩
      [⟨"summarize", []⟩] rfl).2.2 c2agent "nosuch" [] rfl rfl⟩

/-- C7: For every tool-call batch emitted in one model turn, the loop
appends exactly two messages: one model-role message holding the whole call
batch and one user-role message holding all results, aligned with the calls
by position and name — the k-th response part carries the response to the
k-th requested call, and that response keeps the call's name. -/
theorem batch_appends_aligned_message_pair
    (script : Nat → GenerateContentResult) (executor : FunctionExecutor) :
    ∀ (msgs : List Message) (acc : List CallRecord) (iteration fuel : Nat)
      (call : FunctionCall) (rest : List FunctionCall),
      extractFunctionCalls (script iteration) = call :: rest →
      (loopGo script executor msgs acc iteration (fuel + 1) =
        loopGo script executor
          (msgs ++ [mkCallBatchMessage (call :: rest),
            mkResponsesMessage ((call :: rest).map (mkFunctionResponse executor))])
          (acc ++ successRecords executor (call :: rest)) (iteration + 1) fuel) ∧
      (msgs ++ [mkCallBatchMessage (call :: rest),
        mkResponsesMessage ((call :: rest).map
          (mkFunctionResponse executor))]).length = msgs.length + 2 ∧
      (mkCallBatchMessage (call :: rest)).role = .model ∧
      (mkCallBatchMessage (call :: rest)).parts.length = (call :: rest).length ∧
      (mkResponsesMessage ((call :: rest).map
        (mkFunctionResponse executor))).role = .user ∧
      (mkResponsesMessage ((call :: rest).map
        (mkFunctionResponse executor))).parts.length = (call :: rest).length ∧
      (∀ (k : Nat) (c : FunctionCall), (call :: rest)[k]? = some c →
        (mkCallBatchMessage (call :: rest)).parts[k]? =
          some { functionCall := some ⟨c.name, some c.args⟩ } ∧
        (mkResponsesMessage ((call :: rest).map
          (mkFunctionResponse executor))).parts[k]? =
          some { functionResponse := some (mkFunctionResponse executor c) } ∧
        (mkFunctionResponse executor c).name = c.name) := by
  intro msgs acc iteration fuel call rest h
  refine ⟨loopGo_batch_step script executor msgs acc iteration fuel call rest h,
    by simp, rfl, by simp [mkCallBatchMessage], rfl,
    by simp [mkResponsesMessage], ?_⟩
  intro k c hk
  refine ⟨?_, ?_, ?_⟩
  · simp only [mkCallBatchMessage, List.getElem?_map, hk]
    rfl
  · simp only [mkResponsesMessage, List.getElem?_map, hk]
    rfl
  · cases hex : executor c.name c.args <;> simp [mkFunctionResponse, hex]

/-- C7 witness: the theorem applied to the concrete model turn requesting
["search", "summarize"] where "search" errors and "summarize" succeeds, and
the resulting single combined result message carrying one error entry and
one success entry in request order. -/
theorem batch_appends_aligned_message_pair_witness :
    (([] : List Message) ++ [mkCallBatchMessage [⟨"search", []⟩, ⟨"summarize", []⟩],
      mkResponsesMessage ([⟨"search", []⟩, ⟨"summarize", []⟩].map
        (mkFunctionResponse c7exec))]).length = ([] : List Message).length + 2 ∧
    (mkResponsesMessage ([⟨"search", []⟩, ⟨"summarize", []⟩].map
        (mkFunctionResponse c7exec))).parts[0]? =
      some { functionResponse := some (mkFunctionResponse c7exec ⟨"search", []⟩) } ∧
    (mkResponsesMessage ([⟨"search", []⟩, ⟨"summarize", []⟩].map
        (mkFunctionResponse c7exec))).parts[1]? =
      some { functionResponse := some (mkFunctionResponse c7exec ⟨"summarize", []⟩) } ∧
    mkResponsesMessage ([⟨"search", []⟩, ⟨"summarize", []⟩].map
        (mkFunctionResponse c7exec)) =
      ⟨.user,
       [{ functionResponse := some ⟨"search", .vObj [("error", .vStr "search failed")]⟩ },
        { functionResponse := some ⟨"summarize", .vStr "summary"⟩ }]⟩ :=
  ⟨(batch_appends_aligned_message_pair c7script c7exec [] [] 0 0 ⟨"search", []⟩
      [⟨"summarize", []⟩] rfl).2.1,
   ((batch_appends_aligned_message_pair c7script c7exec [] [] 0 0 ⟨"search", []⟩
      [⟨"summarize", []⟩] rfl).2.2.2.2.2.2 0 ⟨"search", []⟩ rfl).2.1,
   ((batch_appends_aligned_message_pair c7script c7exec [] [] 0 0 ⟨"search", []⟩
      [⟨"summarize", []⟩] rfl).2.2.2.2.2.2 1 ⟨"summarize", []⟩ rfl).2.1,
   rfl⟩

/-! ## Claim C4 -/

/-- Bounds on the iteration count of a successful loop run. -/
theorem loopGo_success_iterations (script : Nat → GenerateContentResult)
    (executor : FunctionExecutor) :
    ∀ (fuel : Nat) (msgs : List Message) (acc : List CallRecord)
      (iteration : Nat) (r : FunctionCallingResult),
      loopGo script executor msgs acc iteration fuel = .success r →
      iteration + 1 ≤ r.totalIterations ∧ r.totalIterations ≤ iteration + fuel := by
  intro fuel
  induction fuel with
  | zero =>
    intro msgs acc iteration r h
    rw [loopGo_zero] at h
    cases h
  | succ k ih =>
    intro msgs acc iteration r h
    cases hE : extractFunctionCalls (script iteration) with
    | nil =>
      cases hT : extractTextResponse (script iteration) with
      | some t =>
        rw [loopGo_text_step script executor msgs acc iteration k t hE hT] at h
        injection h with he
        subst he
        dsimp only
        omega
      | none =>
        rw [loopGo_malformed_step script executor msgs acc iteration k hE hT] at h
        cases h
    | cons call rest =>
      rw [loopGo_batch_step script executor msgs acc iteration k call rest hE] at h
      have := ih _ _ _ _ h
      omega

/-- When the model keeps answering with batches, the loop runs out of
iterations. -/
theorem loopGo_all_batches (script : Nat → GenerateContentResult)
    (executor : FunctionExecutor) (maxIterations : Nat) :
    ∀ (fuel iteration : Nat) (msgs : List Message) (acc : List CallRecord),
      iteration + fuel = maxIterations →
      (∀ j, iteration ≤ j → j < maxIterations →
        extractFunctionCalls (script j) ≠ []) →
      loopGo script executor msgs acc iteration fuel = .ranOut maxIterations := by
  intro fuel
  induction fuel with
  | zero =>
    intro iteration msgs acc harith _
    rw [loopGo_zero, show iteration = maxIterations from by omega]
  | succ k ih =>
    intro iteration msgs acc harith hbatch
    have hb := hbatch iteration (Nat.le_refl _) (by omega)
    cases hE : extractFunctionCalls (script iteration) with
    | nil => exact absurd hE hb
    | cons call rest =>
      rw [loopGo_batch_step script executor msgs acc iteration k call rest hE]
      exact ih (iteration + 1) _ _ (by omega)
        (fun j hj1 hj2 => hbatch j (by omega) hj2)

/-- When the model answers with batches until a malformed response at
iteration `i`, the loop breaks at `i`. -/
theorem loopGo_malformed_at (script : Nat → GenerateContentResult)
    (executor : FunctionExecutor) (i : Nat) :
    ∀ (fuel iteration : Nat) (msgs : List Message) (acc : List CallRecord),
      iteration < i → i ≤ iteration + fuel →
      (∀ j, iteration ≤ j → j + 1 < i → extractFunctionCalls (script j) ≠ []) →
      extractFunctionCalls (script (i - 1)) = [] →
      extractTextResponse (script (i - 1)) = none →
      loopGo script executor msgs acc iteration fuel = .broke i := by
  intro fuel
  induction fuel with
  | zero =>
    intro iteration msgs acc h1 h2 _ _ _
    exact absurd h1 (by omega)
  | succ k ih =>
    intro iteration msgs acc h1 h2 hbatch hmalc hmalt
    by_cases hcase : iteration + 1 = i
    · subst hcase
      rw [Nat.add_sub_cancel] at hmalc hmalt
      exact loopGo_malformed_step script executor msgs acc iteration k hmalc hmalt
    · have hb := hbatch iteration (Nat.le_refl _) (by omega)
      cases hE : extractFunctionCalls (script iteration) with
      | nil => exact absurd hE hb
      | cons call rest =>
        rw [loopGo_batch_step script executor msgs acc iteration k call rest hE]
        exact ih (iteration + 1) _ _ (by omega) (by omega)
          (fun j hj1 hj2 => hbatch j (by omega) hj2) hmalc hmalt

/-- C4 counterexample: with cap 1 and a model whose very first — and only
permitted — response is malformed (neither tool calls nor text), the loop
raises the iteration-budget error, not the distinct no-final-answer error
the claim requires for a malformed response: after the `break`, the source's
`iteration >= maxIterations` check fires first. -/
theorem budget_error_shadows_malformed :
    (executeFunctionCallingLoop (fun _ => ⟨[]⟩) [] []
      (fun _ _ => .error "boom") 1).1 = .error (.maxIterationsExceeded 1) ∧
    LoopError.maxIterationsExceeded 1 ≠ LoopError.noFinalAnswer :=
  ⟨rfl, by decide⟩

/-- C4 amended: for every run of the loop with cap `maxIterations`: a
successful run has `1 ≤ totalIterations ≤ maxIterations`; a model that
requests tool calls on every permitted iteration makes the loop terminate
with the iteration-budget-exceeded error — never a returned answer; a
malformed model response (neither calls nor text) at iteration `i` makes
the run fail with the DISTINCT no-final-answer error whenever
`i < maxIterations`, but when the malformed response occurs on the final
permitted iteration (`i = maxIterations`) the loop raises the
iteration-budget error instead, conflating the two causes. -/
theorem loop_iteration_budget (script : Nat → GenerateContentResult)
    (executor : FunctionExecutor) (tools : List FunctionDeclaration)
    (initialMessages : List Message) (maxIterations : Nat) :
    (∀ (r : FunctionCallingResult) (n : Nat),
      executeFunctionCallingLoop script initialMessages tools executor
        maxIterations = (.ok r, n) →
      1 ≤ r.totalIterations ∧ r.totalIterations ≤ maxIterations) ∧
    ((∀ j, j < maxIterations → extractFunctionCalls (script j) ≠ []) →
      (executeFunctionCallingLoop script initialMessages tools executor
        maxIterations).1 = .error (.maxIterationsExceeded maxIterations)) ∧
    (∀ i, 1 ≤ i → i ≤ maxIterations →
      (∀ j, j + 1 < i → extractFunctionCalls (script j) ≠ []) →
      extractFunctionCalls (script (i - 1)) = [] →
      extractTextResponse (script (i - 1)) = none →
      (executeFunctionCallingLoop script initialMessages tools executor
        maxIterations).1 =
        (if i = maxIterations then .error (.maxIterationsExceeded maxIterations)
         else .error .noFinalAnswer)) ∧
    LoopError.maxIterationsExceeded maxIterations ≠ LoopError.noFinalAnswer := by
  refine ⟨?_, ?_, ?_, by simp⟩
  · intro r n h
    simp only [executeFunctionCallingLoop] at h
    cases hL : loopGo script executor initialMessages [] 0 maxIterations with
    | success r0 =>
      rw [hL] at h
      dsimp only at h
      simp only [Prod.mk.injEq, Except.ok.injEq] at h
      obtain ⟨he, _⟩ := h
      subst he
      have := loopGo_success_iterations script executor maxIterations
        initialMessages [] 0 r0 hL
      omega
    | broke i =>
      rw [hL] at h
      dsimp only at h
      split at h <;> simp at h
    | ranOut i =>
      rw [hL] at h
      dsimp only at h
      split at h <;> simp at h
  · intro hbatch
    have hrun := loopGo_all_batches script executor maxIterations maxIterations 0
      initialMessages [] (by omega) (fun j _ hj2 => hbatch j hj2)
    simp only [executeFunctionCallingLoop, hrun]
    simp
  · intro i hi1 hi2 hbatch hmalc hmalt
    have hrun := loopGo_malformed_at script executor i maxIterations 0
      initialMessages [] (by omega) (by omega)
      (fun j _ hj2 => hbatch j hj2) hmalc hmalt
    simp only [executeFunctionCallingLoop, hrun]
    by_cases hcase : i = maxIterations
    · subst hcase
      simp
    · have hlt : ¬ maxIterations ≤ i := by omega
      simp [hcase, hlt]

/-- A model script that requests a tool call on every turn. -/
def c4batchScript : Nat → GenerateContentResult :=
  fun _ => ⟨[⟨some ⟨some [{ functionCall := some ⟨"t", some []⟩ }]⟩⟩]⟩

/-- C4 witness: the amended theorem applied to a concrete successful run
(2 iterations under cap 10), a concrete always-batching run under cap 3
(budget error), and a concrete run whose first response is malformed under
cap 5 (the distinct no-final-answer error, since 1 < 5). -/
theorem loop_iteration_budget_witness :
    (1 ≤ (FunctionCallingResult.mk (some "done") [] 2).totalIterations ∧
      (FunctionCallingResult.mk (some "done") [] 2).totalIterations ≤ 10) ∧
    (executeFunctionCallingLoop c4batchScript [] []
      (fun _ _ => .error "boom") 3).1 = .error (.maxIterationsExceeded 3) ∧
    (executeFunctionCallingLoop (fun _ => ⟨[]⟩) [] []
      (fun _ _ => .error "boom") 5).1 = .error .noFinalAnswer := by
  refine ⟨?_, ?_, ?_⟩
  · exact (loop_iteration_budget c5script c5exec [] [] 10).1
      ⟨some "done", [], 2⟩ 2 rfl
  · refine (loop_iteration_budget c4batchScript (fun _ _ => .error "boom")
      [] [] 3).2.1 ?_
    intro j _
    rw [show extractFunctionCalls (c4batchScript j) = [⟨"t", []⟩] from rfl]
    simp
  · have h := (loop_iteration_budget (fun _ => (⟨[]⟩ : GenerateContentResult))
      (fun _ _ => .error "boom") [] [] 5).2.2.1 1 (by omega) (by omega)
      (fun j hj => absurd hj (by omega)) rfl rfl
    simpa using h

end A2A
